import Mathlib

/-!
Verification of the ZLang compiler pipeline (lexer / optimizer / semantic
validator / C code generator) against its natural-language specification.

The Python sources are shallowly embedded:
* instructions are `(opcode, operands, source line)` triples of strings,
* Python dicts/sets appear as association lists / lists with membership,
* Python `float` (IEEE double) values are modelled by exact rationals `ℚ`;
  on every value appearing in the theorems below, double-precision
  arithmetic is exact, so the models agree with the source.  The spellings
  `inf` / `nan` and digit underscores accepted by Python's `float()` are
  not modelled; no theorem below depends on them.
* fallible code returns `Except CompilerError`.
-/

namespace ZLang

/-! ## String helpers (Python string-method models over `List Char`) -/

/-- Characters of a string. -/
def chars (s : String) : List Char := s.data

/-- Build a string back from characters. -/
def ofChars (l : List Char) : String := String.mk l

/-- Python whitespace characters (the ASCII ones; tokens here are ASCII). -/
def pyWS (c : Char) : Bool :=
  c = ' ' ∨ c = '\t' ∨ c = '\n' ∨ c = '\r' ∨ c = '\x0b' ∨ c = '\x0c'

/-- Model of Python `str.strip()`. -/
def pyStrip (s : String) : String :=
  ofChars ((((chars s).dropWhile pyWS).reverse.dropWhile pyWS).reverse)

/-- Model of Python `str.lstrip()` restricted to its length (used for indent). -/
def leadingWSCount (s : String) : Nat := ((chars s).takeWhile pyWS).length

/-- Model of Python `str.rstrip (backslash n)`. -/
def rstripNewline (s : String) : String :=
  ofChars (((chars s).reverse.dropWhile (· = '\n')).reverse)

/-- `List Char` version of `isPrefixOf`. -/
def charsPrefix (p l : List Char) : Bool :=
  match p, l with
  | [], _ => true
  | _ :: _, [] => false
  | a :: p1, b :: l1 => a = b && charsPrefix p1 l1

/-- Split on a separator, fuelled (Python `str.split(sep)` semantics). -/
def splitOnCharsAux (sep : List Char) : Nat → List Char → List Char → List (List Char)
  | 0, acc, l => [acc.reverse ++ l]
  | _ + 1, acc, [] => [acc.reverse]
  | f + 1, acc, c :: t =>
    if charsPrefix sep (c :: t) then
      acc.reverse :: splitOnCharsAux sep f [] ((c :: t).drop sep.length)
    else
      splitOnCharsAux sep f (c :: acc) t

/-- Model of Python `s.split(sep)` for a non-empty separator. -/
def pySplit (s sep : String) : List String :=
  (splitOnCharsAux (chars sep) ((chars s).length + 1) [] (chars s)).map ofChars

/-- Model of Python `s.split(sep, 1)`: split at the FIRST occurrence only. -/
def pySplitOnceAux (sep : List Char) : Nat → List Char → List Char → Option (List Char × List Char)
  | 0, _, _ => none
  | _ + 1, _, [] => none
  | f + 1, acc, c :: t =>
    if charsPrefix sep (c :: t) then some (acc.reverse, (c :: t).drop sep.length)
    else pySplitOnceAux sep f (c :: acc) t

/-- First-occurrence split; `none` when the separator does not occur. -/
def pySplitOnce (s sep : String) : Option (String × String) :=
  (pySplitOnceAux (chars sep) ((chars s).length + 1) [] (chars s)).map
    (fun p => (ofChars p.1, ofChars p.2))

/-- Model of Python substring containment (`sub in s`). -/
def strContains (s sub : String) : Bool :=
  (pySplitOnce s sub).isSome

/-- Model of Python `s.rsplit(sep, 1)[0]` (text before the LAST occurrence);
the whole string when the separator does not occur. -/
def beforeLast (s sep : String) : String :=
  match pySplitOnce (ofChars (chars s).reverse) (ofChars (chars sep).reverse) with
  | none => s
  | some p => ofChars (chars p.2).reverse

/-- Join strings with a separator (Python `sep.join`). -/
def joinWith (sep : String) : List String → String
  | [] => ""
  | [x] => x
  | x :: y :: t => x ++ sep ++ joinWith sep (y :: t)

/-- Model of Python `s.replace(a, b)` (non-overlapping, left to right). -/
def pyReplace (s a b : String) : String := joinWith b (pySplit s a)

/-- Model of Python `s.split()` (split on whitespace runs, dropping empties). -/
def pySplitWsAux : Nat → List Char → List String
  | 0, _ => []
  | _ + 1, [] => []
  | f + 1, c :: t =>
    if pyWS c then pySplitWsAux f t
    else
      let tok := (c :: t).takeWhile (fun d => ¬ pyWS d)
      ofChars tok :: pySplitWsAux f ((c :: t).dropWhile (fun d => ¬ pyWS d))

/-- Model of Python `s.split()`. -/
def pySplitWs (s : String) : List String := pySplitWsAux ((chars s).length + 1) (chars s)

/-- Model of Python `s.startswith(p)`. -/
def pyStartsWith (s p : String) : Bool := charsPrefix (chars p) (chars s)

/-- Model of Python `s.endswith(p)`. -/
def pyEndsWith (s p : String) : Bool := charsPrefix (chars p).reverse (chars s).reverse

/-- ASCII upper-casing of one character (tokens here are ASCII). -/
def upChar (c : Char) : Char :=
  if 'a' ≤ c ∧ c ≤ 'z' then Char.ofNat (c.toNat - 32) else c

/-- Model of Python `s.upper()` on ASCII text. -/
def pyUpper (s : String) : String := ofChars ((chars s).map upChar)

/-- Drop the first `n` characters (`s[n:]`). -/
def strDrop (s : String) (n : Nat) : String := ofChars ((chars s).drop n)

/-- Drop the last `n` characters (`s[:-n]`). -/
def strDropRight (s : String) (n : Nat) : String :=
  ofChars ((chars s).take ((chars s).length - n))

/-- Take the first `n` characters (`s[:n]`). -/
def strTake (s : String) (n : Nat) : String := ofChars ((chars s).take n)

/-! ## Model of Python numeric-literal parsing and printing

`pyFloatQ?` models the set of strings accepted by Python's `float()`
(sign, digits, optional fraction, optional exponent) and their exact
values as rationals. -/

/-- Split leading decimal digits off a character list. -/
def takeDigits (l : List Char) : List Char × List Char :=
  (l.takeWhile Char.isDigit, l.dropWhile Char.isDigit)

/-- Numeric value of a digit string. -/
def digitsVal (l : List Char) : Nat :=
  l.foldl (fun a c => a * 10 + (c.toNat - '0'.toNat)) 0

/-- Parse an unsigned decimal-with-fraction-and-exponent tail; value in `ℚ`. -/
def parseUnsigned (l : List Char) : Option ℚ :=
  let (ip, r1) := takeDigits l
  let (fp, r2) :=
    match r1 with
    | '.' :: t => takeDigits t
    | _ => ([], r1)
  let r2 := if r1 ≠ [] ∧ r1.head? = some '.' then r2 else r1
  if ip = [] ∧ fp = [] then none
  else
    let mantissa : ℚ := (digitsVal ip : ℚ) + (digitsVal fp : ℚ) / ((10 : ℚ) ^ fp.length)
    match r2 with
    | [] => some mantissa
    | 'e' :: t | 'E' :: t =>
      let (sgn, t1) :=
        match t with
        | '+' :: u => (1, u)
        | '-' :: u => (-1, u)
        | _ => ((1 : Int), t)
      let (ed, t2) := takeDigits t1
      if ed = [] ∨ t2 ≠ [] then none
      else
        let e := digitsVal ed
        some (if sgn = 1 then mantissa * (10 : ℚ) ^ e else mantissa / (10 : ℚ) ^ e)
    | _ => none

/-- Model of Python `float(s)`: `none` models a raised `ValueError`. -/
def pyFloatQ? (s : String) : Option ℚ :=
  match chars s with
  | '+' :: t => parseUnsigned t
  | '-' :: t => (parseUnsigned t).map (fun q => -q)
  | l => parseUnsigned l

/-- Smallest `k ≤ 30` with `q * 10 ^ k` integral, if any. -/
def decExponent (q : ℚ) : Option Nat :=
  (List.range 31).find? (fun k => (q * (10 : ℚ) ^ k).den = 1)

/-- Insert a decimal point `k` digits from the right of a digit string. -/
def insertPoint (digits : List Char) (k : Nat) : List Char :=
  let padded := List.replicate (k + 1 - digits.length) '0' ++ digits
  padded.take (padded.length - k) ++ '.' :: padded.drop (padded.length - k)

/-- Model of Python `str()` applied to a float value.  It agrees with the
program exactly on the values at which the theorems below use it: an
integral value of magnitude at most `2 ^ 53` prints as the integer
followed by `.0`, exactly as Python prints the corresponding double.  On
other rationals it is only nominal (a terminating expansion prints in
full, anything else gets a placeholder) and differs from Python's
shortest-repr printing of the rounded double; no theorem depends on those
values. -/
def pyFloatStr (q : ℚ) : String :=
  if q.den = 1 then toString q.num ++ ".0"
  else
    match decExponent q with
    | some k =>
      let m := (q * (10 : ℚ) ^ k).num
      (if m < 0 then "-" else "") ++ ofChars (insertPoint (chars (toString m.natAbs)) k)
    | none => "<float>"

/-! ## Error model (src/errors.py) -/

/-- Error codes of the Z compiler (`ErrorCode` in src/errors.py). -/
inductive ErrorCode where
  | FILE_NOT_FOUND | FILE_READ_ERROR | FILE_WRITE_ERROR | INVALID_FILE_FORMAT | IO_ERROR
  | SYNTAX_ERROR | UNEXPECTED_TOKEN | MISSING_TOKEN | INVALID_SYNTAX | UNKNOWN_OPCODE
  | INVALID_CONDITION
  | UNDEFINED_SYMBOL | REDEFINED_SYMBOL | TYPE_MISMATCH | INVALID_OPERATION | INVALID_TYPE
  | INVALID_OPERAND | TYPE_ERROR | MISSING_RETURN
  | CODE_GEN_ERROR | COMPILER_ERROR
  | RUNTIME_ERROR | DIVISION_BY_ZERO | OUT_OF_BOUNDS | OVERFLOW
  | SYSTEM_ERROR | COMPILER_BUG
  | EXTERNAL_TOOL_ERROR | COMPILATION_ERROR | COMPILATION_FAILED | NO_COMPILER
  | CONFIGURATION_ERROR | MISSING_DEPENDENCY
  | UNEXPECTED_ERROR | NO_OUTPUT_FILE | CUSTOM_ERROR
  deriving DecidableEq, Repr

/-- Numeric value of each error code (`.value` in the Python enum). -/
def ErrorCode.value : ErrorCode → Nat
  | .FILE_NOT_FOUND => 1 | .FILE_READ_ERROR => 2 | .FILE_WRITE_ERROR => 3
  | .INVALID_FILE_FORMAT => 4 | .IO_ERROR => 5
  | .SYNTAX_ERROR => 11 | .UNEXPECTED_TOKEN => 12 | .MISSING_TOKEN => 13
  | .INVALID_SYNTAX => 14 | .UNKNOWN_OPCODE => 15 | .INVALID_CONDITION => 16
  | .UNDEFINED_SYMBOL => 21 | .REDEFINED_SYMBOL => 22 | .TYPE_MISMATCH => 23
  | .INVALID_OPERATION => 24 | .INVALID_TYPE => 25 | .INVALID_OPERAND => 26
  | .TYPE_ERROR => 27 | .MISSING_RETURN => 28
  | .CODE_GEN_ERROR => 31 | .COMPILER_ERROR => 32
  | .RUNTIME_ERROR => 41 | .DIVISION_BY_ZERO => 42 | .OUT_OF_BOUNDS => 43 | .OVERFLOW => 45
  | .SYSTEM_ERROR => 51 | .COMPILER_BUG => 52
  | .EXTERNAL_TOOL_ERROR => 61 | .COMPILATION_ERROR => 62 | .COMPILATION_FAILED => 63
  | .NO_COMPILER => 64
  | .CONFIGURATION_ERROR => 71 | .MISSING_DEPENDENCY => 72
  | .UNEXPECTED_ERROR => 90 | .NO_OUTPUT_FILE => 91 | .CUSTOM_ERROR => 99

/-- The `CompilerError` exception (message, optional line, code, optional path). -/
structure CompilerError where
  message : String
  line_num : Option Nat := none
  error_code : ErrorCode := .SYNTAX_ERROR
  file_path : Option String := none
  deriving DecidableEq, Repr

/-! ## Dict / set models -/

/-- Python `d.get(k)` on an association list. -/
def dictGet {α β : Type} [BEq α] (k : α) (d : List (α × β)) : Option β :=
  (d.find? (fun p => p.1 == k)).map (·.2)

/-- Python `d[k] = v`: replace in place, else append (insertion order kept). -/
def dictUpsert {α β : Type} [BEq α] (k : α) (v : β) (d : List (α × β)) : List (α × β) :=
  if (dictGet k d).isSome then d.map (fun p => if p.1 == k then (k, v) else p)
  else d ++ [(k, v)]

/-- Python `del d[k]`. -/
def dictDel {α β : Type} [BEq α] (k : α) (d : List (α × β)) : List (α × β) :=
  d.filter (fun p => ¬ p.1 == k)

/-- Python `s.add(x)` on a set modelled as a duplicate-free list. -/
def setInsert (x : String) (s : List String) : List String :=
  if x ∈ s then s else s ++ [x]

/-! ## The instruction stream -/

/-- One IR instruction: `(opcode, operands, source line)`. -/
abbrev Instr := String × List String × Nat

/-- Opcode of an instruction. -/
def Instr.opcode (i : Instr) : String := i.1

/-- Operand list of an instruction. -/
def Instr.operands (i : Instr) : List String := i.2.1

/-- Source line of an instruction. -/
def Instr.line (i : Instr) : Nat := i.2.2

/-! ## Optimizer (src/optimizer.py) -/

/-- `is_numeric_operand` (src/optimizer.py, lines 5-13): a `float()`-parse
test with a recursive extra-minus rule. -/
def isNumericAux : Nat → List Char → Bool
  | _, [] => false
  | 0, _ => false
  | f + 1, l =>
    if (pyFloatQ? (ofChars l)).isSome then true
    else
      match l with
      | '-' :: c :: t => isNumericAux f (c :: t)
      | _ => false

/-- `is_numeric_operand` from src/optimizer.py. -/
def is_numeric_operand (x : String) : Bool :=
  isNumericAux ((chars x).length + 1) (chars x)

/-- The exact value of Python's float `%` on the values arising here:
`a - b * floor(a / b)` (result carries the divisor's sign). -/
def ratMod (a b : ℚ) : ℚ := a - b * (⌊a / b⌋ : ℚ)

/-- `fold_constant_expression` (src/optimizer.py, lines 15-49).
`ok none` models both `return None` paths and the caught
`ValueError`/`IndexError`; `.error` models the uncaught `CompilerError`
raised on a literal-zero divisor/modulus.  The float64 arithmetic is
modelled by exact rationals, which coincides with the program only where
parsing, the operation and the zero test are exact in doubles (for
example, the program's `float("1e-400")` underflows to `0.0` and trips
the divisor test, while `10 ^ -400 ≠ 0` here); the only theorem
quantifying over literals, C5's, is scoped to plain digit literals and
integral results within `2 ^ 53`, where the two agree. -/
def fold_constant_expression (op : String) (operands : List String) (line_num : Nat)
    (z_file : String) : Except CompilerError (Option ℚ) :=
  if ¬ (operands.dropLast.all is_numeric_operand) then .ok none
  else
    match (operands.dropLast).mapM pyFloatQ? with
    | none => .ok none
    | some nums =>
      match op, nums with
      | "ADD", n0 :: n1 :: _ => .ok (some (n0 + n1))
      | "SUB", n0 :: n1 :: _ => .ok (some (n0 - n1))
      | "MUL", n0 :: n1 :: _ => .ok (some (n0 * n1))
      | "DIV", n0 :: n1 :: _ =>
        if n1 = 0 then
          .error ⟨"Division by zero in constant expression", some line_num,
                  .DIVISION_BY_ZERO, some z_file⟩
        else .ok (some (n0 / n1))
      | "MOD", n0 :: n1 :: _ =>
        if n1 = 0 then
          .error ⟨"Modulo by zero in constant expression", some line_num,
                  .DIVISION_BY_ZERO, some z_file⟩
        else .ok (some (ratMod n0 n1))
      | _, _ => .ok none

/-- Inner loop of `constant_propagation` carrying the `constants` dict. -/
def constantPropagationGo (z_file : String) (constants : List (String × String)) :
    List Instr → List Instr
  | [] => []
  | (op, operands, line_num) :: rest =>
    let new_operands := operands.map (fun o => (dictGet o constants).getD o)
    let constantsA :=
      match op, new_operands with
      | "MOV", [v, d] => if is_numeric_operand v then dictUpsert d v constants else constants
      | _, _ => constants
    let constantsB :=
      match operands with
      | o0 :: _ =>
        if (op = "STORE" ∨ op = "CALL" ∨ op = "RET") ∧ (dictGet o0 constantsA).isSome then
          dictDel o0 constantsA
        else constantsA
      | [] => constantsA
    (op, new_operands, line_num) :: constantPropagationGo z_file constantsB rest

/-- `constant_propagation` (src/optimizer.py, lines 51-70). -/
def constant_propagation (instructions : List Instr) (z_file : String) : List Instr :=
  constantPropagationGo z_file [] instructions

/-- Add all non-numeric operands to the used-variable set
(`used_vars.update(...)` in the backward scan). -/
def usedUpdate (used : List String) (operands : List String) : List String :=
  operands.foldl (fun u o => if is_numeric_operand o then u else setInsert o u) used

/-- Backward liveness scan of `dead_code_elimination` (input already reversed). -/
def dceUsedVarsRev (used : List String) : List Instr → List String
  | [] => used
  | (op, operands, _) :: rest =>
    match op, operands with
    | "MOV", [_, d] =>
      if d ∈ used then dceUsedVarsRev (usedUpdate used operands) rest
      else dceUsedVarsRev used rest
    | _, _ => dceUsedVarsRev (usedUpdate used operands) rest

/-- The dead-store test of the second pass. -/
def isDeadStore (used : List String) : Instr → Bool
  | ("MOV", [_, d], _) => ¬ d ∈ used
  | _ => false

/-- `dead_code_elimination` (src/optimizer.py, lines 72-88). -/
def dead_code_elimination (instructions : List Instr) : List Instr :=
  let used := dceUsedVarsRev [] instructions.reverse
  instructions.filter (fun i => ¬ isDeadStore used i)

/-- One step of `strength_reduction`. -/
def strengthStep : Instr → Instr
  | ("MUL", [a, b, c], n) =>
    if a = "2" then ("ADD", [b, b, c], n)
    else if a = "1" then ("MOV", [b, c], n)
    else ("MUL", [a, b, c], n)
  | ("ADD", [a, b, c], n) =>
    if a = "0" then ("MOV", [b, c], n) else ("ADD", [a, b, c], n)
  | i => i

/-- `strength_reduction` (src/optimizer.py, lines 90-107). -/
def strength_reduction (instructions : List Instr) : List Instr :=
  instructions.map strengthStep

/-- The constant-folding pass inside `optimize_instructions`
(src/optimizer.py, lines 132-141). -/
def folding_pass (z_file : String) : List Instr → Except CompilerError (List Instr)
  | [] => .ok []
  | (op, operands, line_num) :: rest =>
    if (op = "ADD" ∨ op = "SUB" ∨ op = "MUL" ∨ op = "DIV" ∨ op = "MOD") ∧
        operands.length ≥ 2 then do
      let result ← fold_constant_expression op operands line_num z_file
      let tail ← folding_pass z_file rest
      match result, operands with
      | some r, [_, _, d] => .ok (("MOV", [pyFloatStr r, d], line_num) :: tail)
      | _, _ => .ok ((op, operands, line_num) :: tail)
    else do
      let tail ← folding_pass z_file rest
      .ok ((op, operands, line_num) :: tail)

/-- The bounded multi-pass loop of `optimize_instructions` (`for _ in range(3)`
with the early-stop comparison; on early stop the pre-fold list is returned). -/
def optimizeRounds (z_file : String) : Nat → List Instr → Except CompilerError (List Instr)
  | 0, s => .ok s
  | k + 1, s => do
    let o := strength_reduction (dead_code_elimination (constant_propagation s z_file))
    let n ← folding_pass z_file o
    if n.length = o.length ∧ (o.zip n).all (fun p => decide (p.1 = p.2)) then .ok o
    else optimizeRounds z_file k n

/-- `optimize_instructions` (src/optimizer.py, lines 109-151). -/
def optimize_instructions (instructions : List Instr) (z_file : String) :
    Except CompilerError (List Instr) :=
  if instructions = [] then .ok [] else optimizeRounds z_file 3 instructions

/-! ## Lexer (src/lexer.py)

`parse_z_lines` models `parse_z_file` from the point after the file has
been read into a list of physical lines. -/

/-- The opcode vocabulary `OPS` (src/lexer.py, lines 11-13). -/
def OPS : List String :=
  ["MOV", "ADD", "SUB", "MUL", "DIV", "PRINT", "READ", "MOD", "INC", "DEC", "CALL", "RET",
   "ERROR", "FNDEF", "FN", "FOR", "WHILE", "IF", "ELSE", "ELIF", "PRINTSTR", "PRINTARR",
   "CONST", "ARR", "LEN", "PUSH", "POP", "PTR", "IMPORT"]

/-- `is_identifier` (the `IDENTIFIER_RE` regex). -/
def is_identifier (token : String) : Bool :=
  match chars token with
  | [] => false
  | c :: t => (c.isAlpha ∨ c = '_') ∧ t.all (fun d => d.isAlphanum ∨ d = '_')

/-- `is_number` from src/lexer.py (a `float()`-parse test). -/
def is_number (token : String) : Bool := (pyFloatQ? token).isSome

/-- The primitive type keywords used by the MOV/CONST arms. -/
def typeKeywords : List String := ["int", "float", "double", "string", "bool"]

/-- Try the `"[^"]*"` regex alternative: the text up to the next quote plus
the remainder after it. -/
def quotedSplit (rest : List Char) : Option (List Char × List Char) :=
  match rest.dropWhile (· ≠ '"') with
  | [] => none
  | _ :: rem => some (rest.takeWhile (· ≠ '"'), rem)

/-- `TOKEN_RE.findall` — the regex is a quoted string or a maximal
non-whitespace run, tried left to right at each position. -/
def findTokensAux : Nat → List Char → List String
  | 0, _ => []
  | _ + 1, [] => []
  | f + 1, c :: t =>
    if c = '"' ∧ (quotedSplit t).isSome then
      match quotedSplit t with
      | some (pre, rem) => ofChars ('"' :: (pre ++ ['"'])) :: findTokensAux f rem
      | none => []
    else if pyWS c then findTokensAux f t
    else
      ofChars ((c :: t).takeWhile (fun d => ¬ pyWS d)) ::
        findTokensAux f ((c :: t).dropWhile (fun d => ¬ pyWS d))

/-- `TOKEN_RE.findall` on a line. -/
def findTokens (s : String) : List String := findTokensAux ((chars s).length + 1) (chars s)

/-- Index of the first occurrence of a character (`str.find`). -/
def firstIdxOf (l : List Char) (c : Char) : Option Nat :=
  match l.findIdx? (· = c) with
  | some i => some i
  | none => none

/-- Index of the last occurrence of a character (`str.rfind`). -/
def lastIdxOf (l : List Char) (c : Char) : Option Nat :=
  (firstIdxOf l.reverse c).map (fun i => l.length - 1 - i)

/-- Tokenisation of one statement line (src/lexer.py, lines 100-129); also
returns the possibly `ELSE:`-rewritten line used by the FN arm. -/
def computeTokens (line : String) : List String × String :=
  if pyStartsWith line "PRINT " then
    let expr := pyStrip (strDrop line 5)
    if strContains expr "[" ∧ strContains expr "]" then (["PRINT", expr], line)
    else (findTokens line, line)
  else if pyStartsWith line "ARR " then
    let parts := pySplitWs line
    if parts.length ≥ 4 ∧ strContains line "[" ∧ strContains line "]" then
      let startIdx := (firstIdxOf (chars line) '[').getD 0
      let endIdx := (lastIdxOf (chars line) ']').getD 0
      let arrayValues := ofChars (((chars line).drop startIdx).take (endIdx + 1 - startIdx))
      let beforeValues := pyStrip (strTake line startIdx)
      (findTokens beforeValues ++ [arrayValues], line)
    else (findTokens line, line)
  else
    let line2 :=
      if strContains line "ELSE:" ∧ ¬ (strContains line "IF" ∨ strContains line "ELIF") then
        pyReplace line "ELSE:" "ELSE"
      else line
    (findTokens line2, line2)

/-- Lexer declaration table: Python-dict keys are `(scope, name)` tuples in
the lexer and also plain strings in the semantic phase. -/
inductive DeclKey where
  | str : String → DeclKey
  | pair : Option String → String → DeclKey
  deriving DecidableEq, BEq, Repr

/-- A declaration record; absent dict fields are `none` / the `.get` default. -/
structure DeclInfo where
  const : Bool := false
  type : Option String := none
  kind : Option String := none
  params : List (String × String) := []
  return_type : Option String := none
  line : Nat := 0
  deriving DecidableEq, Repr

/-- The declaration table. -/
abbrev Decls := List (DeclKey × DeclInfo)

/-- Lexer loop state. -/
structure LexState where
  instructions : List Instr := []
  /-- the Python `variables` set -/
  varSet : List String := []
  /-- Python `indent_stack`, head is the top of the stack; starts `[0]`. -/
  indentStack : List Nat := [0]
  currentFunction : Option String := none
  funcDepth : Nat := 0
  declarations : Decls := []
  deriving Repr

/-- The `while indent < indent_stack[-1]` pop loop: emits one DEDENT per
popped level and maintains the function-scope bookkeeping. -/
def popBlocks (lineNum indent : Nat) :
    List Nat → List Instr → Option String → Nat → (List Nat × List Instr × Option String × Nat)
  | [], instrs, cf, fd => ([], instrs, cf, fd)
  | top :: rest, instrs, cf, fd =>
    if indent < top then
      let fd2 := if cf.isSome then fd - 1 else fd
      let cf2 := if cf.isSome ∧ fd2 = 0 then none else cf
      popBlocks lineNum indent rest (instrs ++ [("DEDENT", [], lineNum)]) cf2 fd2
    else (top :: rest, instrs, cf, fd)

/-- The indentation-change handling of `parse_z_file` (lines 75-93). -/
def indentAdjust (zf : String) (lineNum indent : Nat) (st : LexState) :
    Except CompilerError LexState :=
  match st.indentStack with
  | [] => .ok st
  | top :: rest =>
    if indent > top then
      .ok { st with
        indentStack := indent :: top :: rest,
        instructions := st.instructions ++ [("INDENT", [], lineNum)],
        funcDepth := st.funcDepth + (if st.currentFunction.isSome then 1 else 0) }
    else if indent < top then
      let r := popBlocks lineNum indent (top :: rest) st.instructions st.currentFunction st.funcDepth
      match r.1.head? with
      | some t2 =>
        if indent ≠ t2 then
          .error ⟨"Inconsistent indentation", some lineNum, .SYNTAX_ERROR, some zf⟩
        else
          .ok { st with
            indentStack := r.1, instructions := r.2.1,
            currentFunction := r.2.2.1, funcDepth := r.2.2.2 }
      | none => .error ⟨"Inconsistent indentation", some lineNum, .SYNTAX_ERROR, some zf⟩
    else .ok st

/-- Parameter-list parsing inside the FN arm. -/
def parseParams (zf : String) (lineNum : Nat) : List String → Except CompilerError (List String)
  | [] => .ok []
  | p :: rest => do
    let p2 := pyStrip p
    if p2 = "" then parseParams zf lineNum rest
    else
      let parts := pySplitWs p2
      if parts.length = 2 ∧ parts.headD "" ∈ typeKeywords then do
        let tail ← parseParams zf lineNum rest
        .ok (parts ++ tail)
      else
        .error ⟨"Function parameter \x27" ++ p2 ++
                "\x27 requires explicit type declaration (e.g., int param)",
                some lineNum, .SYNTAX_ERROR, some zf⟩

/-- Trailing-colon stripping in the FN arm (`decl[:-1] if decl.endswith`). -/
def fnStripColon (decl0 : String) : String :=
  if pyEndsWith decl0 ":" then strDropRight decl0 1 else decl0

/-- Return-type splitting in the FN arm (`decl.split(chevron arrow, 1)`). -/
def fnSplitRet (decl1 : String) : String × Option String :=
  if strContains decl1 "->" then
    match pySplitOnce decl1 "->" with
    | some (d, r) => (pyStrip d, some (pyStrip r))
    | none => (decl1, none)
  else (decl1, none)

/-- The FN arm (src/lexer.py, lines 147-183); `lineMod` is the (possibly
`ELSE:`-rewritten) comment-stripped line. -/
def fnArm (zf : String) (st : LexState) (lineNum : Nat) (lineMod : String) :
    Except CompilerError LexState := do
  let decl1 := fnStripColon (pyStrip (strDrop lineMod 2))
  let (declF, retType) := fnSplitRet decl1
  if strContains declF "(" ∧ strContains declF ")" then do
    let funcName := pyStrip ((pySplit declF "(").headD "")
    let afterParen := match pySplitOnce declF "(" with | some p => p.2 | none => ""
    let paramsStr := pyStrip (beforeLast afterParen ")")
    let params ← if paramsStr = "" then .ok [] else parseParams zf lineNum (pySplit paramsStr ",")
    let retOps := match retType with | some r => if r ≠ "" then [r] else [] | none => []
    .ok { st with
      instructions := st.instructions ++ [("FNDEF", funcName :: (params ++ retOps), lineNum)],
      currentFunction := some funcName, funcDepth := 0 }
  else
    let funcName := pyStrip declF
    .ok { st with
      instructions := st.instructions ++ [("FNDEF", [funcName], lineNum)],
      currentFunction := some funcName, funcDepth := 0 }

/-- Character scan of the CALL arm: index of the first `)` that balances the
parenthesis count to zero. -/
def parenScanAux : List Char → Int → Nat → Option Nat
  | [], _, _ => none
  | c :: t, cnt, i =>
    if c = '(' then parenScanAux t (cnt + 1) (i + 1)
    else if c = ')' then
      if cnt - 1 = 0 then some i else parenScanAux t (cnt - 1) (i + 1)
    else parenScanAux t cnt (i + 1)

/-- The CALL arm (src/lexer.py, lines 186-237). -/
def callArm (st : LexState) (lineNum : Nat) (operands : List String) : LexState :=
  let joined := joinWith " " operands
  let (callExpr, retVar) :=
    if strContains joined "->" then
      match pySplitOnce joined "->" with
      | some (l, r) => (pyStrip l, some (pyStrip r))
      | none => (joined, none)
    else
      let parts := pySplitWs joined
      if parts.length > 1 then
        if strContains joined "(" ∧ strContains joined ")" then
          match parenScanAux (chars joined) 0 0 with
          | some i =>
            let afterParen := pyStrip (strDrop joined (i + 1))
            if afterParen ≠ "" ∧ ¬ pyStartsWith afterParen "->" then
              (pyStrip (strTake joined (i + 1)), some afterParen)
            else (joined, none)
          | none => (joined, none)
        else (joinWith " " parts.dropLast, some (parts.getLastD ""))
      else (joined, none)
  let (fname, args) :=
    if strContains callExpr "(" ∧ pyEndsWith callExpr ")" then
      let fname := pyStrip ((pySplit callExpr "(").headD "")
      let afterParen := match pySplitOnce callExpr "(" with | some p => p.2 | none => ""
      let argsStr := pyStrip (strDropRight afterParen 1)
      (fname, if argsStr = "" then [] else (pySplit argsStr ",").map pyStrip)
    else (pyStrip callExpr, ([] : List String))
  let retFinal := retVar.getD "_"
  { st with instructions := st.instructions ++ [("CALL", fname :: (args ++ [retFinal]), lineNum)] }

/-- The FOR `..` normalisation (src/lexer.py, lines 240-250). -/
def forRewrite (op : String) (operands : List String) : List String :=
  match op, operands with
  | "FOR", [v, rt] =>
    if strContains rt ".." ∧ ¬ pyEndsWith rt ":" then
      match pySplit rt ".." with
      | [a, b] => [v, a, "..", b]
      | _ => [v, rt]
    else if strContains rt ".." ∧ pyEndsWith rt ":" then
      match pySplit (strDropRight rt 1) ".." with
      | [a, b] => [v, a, "..", b]
      | _ => [v, rt]
    else [v, rt]
  | _, _ => operands

/-- The CONST and MOV declaration arms (src/lexer.py, lines 253-294):
returns the rewritten operand list and the updated declaration table. -/
def constMovArm (zf : String) (cf : Option String) (decls : Decls) (op : String)
    (operands : List String) (lineNum : Nat) :
    Except CompilerError (List String × Decls) :=
  if op = "CONST" then
    match operands with
    | t :: remaining =>
      if t ∈ typeKeywords then
        match remaining with
        | [] => .error ⟨"Missing destination for CONST", some lineNum, .SYNTAX_ERROR, some zf⟩
        | dest :: restEx =>
          let expr := pyStrip (joinWith " " restEx)
          let ops2 := if expr ≠ "" then [t, dest, expr] else [t, dest]
          .ok (ops2, dictUpsert (.pair cf dest)
                       { const := true, type := some t, line := lineNum } decls)
      else
        .error ⟨"CONST requires explicit type declaration (e.g., CONST int var value)",
                some lineNum, .SYNTAX_ERROR, some zf⟩
    | [] =>
      .error ⟨"CONST requires explicit type declaration (e.g., CONST int var value)",
              some lineNum, .SYNTAX_ERROR, some zf⟩
  else if op = "MOV" then
    match operands with
    | t :: remaining =>
      if t ∈ typeKeywords then
        match remaining with
        | [] => .error ⟨"Missing destination for MOV", some lineNum, .SYNTAX_ERROR, some zf⟩
        | dest :: restEx =>
          let expr := pyStrip (joinWith " " restEx)
          let ops2 := if expr ≠ "" then [t, dest, expr] else [t, dest]
          .ok (ops2, dictUpsert (.pair cf dest)
                       { const := false, type := some t, line := lineNum } decls)
      else if operands.length ≥ 2 then
        let dest := t
        let expr := pyStrip (joinWith " " remaining)
        .ok ([dest, expr], decls)
      else
        .error ⟨"MOV requires explicit type declaration (e.g., MOV int var value)",
                some lineNum, .SYNTAX_ERROR, some zf⟩
    | [] =>
      .error ⟨"MOV requires explicit type declaration (e.g., MOV int var value)",
              some lineNum, .SYNTAX_ERROR, some zf⟩
  else .ok (operands, decls)

/-- The invalid-boolean-literal validation loop (src/lexer.py, lines 297-305). -/
def booleanCheck (zf : String) (lineNum : Nat) : List String → Except CompilerError Unit
  | [] => .ok ()
  | t :: rest =>
    let s := pyStrip t
    if s = "True" ∨ s = "False" then
      .error ⟨"Invalid boolean literal \x27" ++ s ++
              "\x27. Use \x27true\x27 or \x27false\x27 (lowercase)",
              some lineNum, .SYNTAX_ERROR, some zf⟩
    else booleanCheck zf lineNum rest

/-- The storage-variable collection loop (src/lexer.py, lines 307-332). -/
def collectVars (zf : String) (lineNum : Nat) (vars : List String) :
    List String → Except CompilerError (List String)
  | [] => .ok vars
  | t :: rest =>
    let tc := if strContains t "[" ∧ strContains t "]" then (pySplit t "[").headD "" else t
    if pyEndsWith tc ":" then collectVars zf lineNum vars rest
    else if tc ∈ ["int", "float", "double", "string", "bool", "from", "to", "..", "mut", "const"]
      then collectVars zf lineNum vars rest
    else if pyStartsWith tc "\"" ∧ pyEndsWith tc "\"" then collectVars zf lineNum vars rest
    else if strContains tc "(" ∨ strContains tc ")" then collectVars zf lineNum vars rest
    else if is_number tc then collectVars zf lineNum vars rest
    else if tc = "true" ∨ tc = "false" then collectVars zf lineNum vars rest
    else if tc = "True" ∨ tc = "False" then
      .error ⟨"Invalid boolean literal \x27" ++ tc ++
              "\x27. Use \x27true\x27 or \x27false\x27 (lowercase)",
              some lineNum, .SYNTAX_ERROR, some zf⟩
    else if is_identifier tc ∧ tc ≠ "main" then collectVars zf lineNum (setInsert tc vars) rest
    else collectVars zf lineNum vars rest

/-- Statement processing after indentation handling (src/lexer.py, lines
100-334): tokenise, dispatch on the opcode, append one instruction. -/
def processStatement (zf : String) (st : LexState) (lineNum : Nat) (line : String) :
    Except CompilerError LexState :=
  let (tokens, lineMod) := computeTokens line
  match tokens with
  | [] => .ok st
  | tok0 :: operands0 =>
    let op := pyUpper tok0
    if ¬ op ∈ OPS then
      .error ⟨"Unknown opcode \x27" ++ op ++ "\x27", some lineNum, .SYNTAX_ERROR, some zf⟩
    else if op = "FN" then fnArm zf st lineNum lineMod
    else if op = "CALL" then .ok (callArm st lineNum operands0)
    else do
      let operands1 := forRewrite op operands0
      let (operands2, decls2) ←
        constMovArm zf st.currentFunction st.declarations op operands1 lineNum
      booleanCheck zf lineNum operands2
      let vars2 ← collectVars zf lineNum st.varSet operands2
      .ok { st with
        instructions := st.instructions ++ [(op, operands2, lineNum)],
        varSet := vars2, declarations := decls2 }

/-- Processing of one physical line (comment skipping, indentation,
statement dispatch). -/
def processLine (zf : String) (st : LexState) (lineNum : Nat) (raw : String) :
    Except CompilerError LexState :=
  let line0 := rstripNewline raw
  let normalized := pyReplace line0 "\t" "    "
  let indent := leadingWSCount normalized
  let line1 := pyStrip line0
  if line1 = "" ∨ pyStartsWith line1 "//" then .ok st
  else do
    let st1 ← indentAdjust zf lineNum indent st
    let line2 := pyStrip ((pySplit line1 "//").headD "")
    if line2 = "" then .ok st1
    else processStatement zf st1 lineNum line2

/-- The main line loop. -/
def parseGo (zf : String) : LexState → Nat → List String → Except CompilerError LexState
  | st, _, [] => .ok st
  | st, n, l :: rest => do
    let st2 ← processLine zf st n l
    parseGo zf st2 (n + 1) rest

/-- The end-of-file block closing (`while len(indent_stack) > 1`). -/
def closeBlocksAux (lineNum : Nat) :
    List Nat → List Instr → Option String → Nat → (List Nat × List Instr × Option String × Nat)
  | [], instrs, cf, fd => ([], instrs, cf, fd)
  | [b], instrs, cf, fd => ([b], instrs, cf, fd)
  | _ :: b :: rest, instrs, cf, fd =>
    let fd2 := if cf.isSome then fd - 1 else fd
    let cf2 := if cf.isSome ∧ fd2 = 0 then none else cf
    closeBlocksAux lineNum (b :: rest) (instrs ++ [("DEDENT", [], lineNum)]) cf2 fd2

/-- `parse_z_file` (src/lexer.py, lines 36-345), modelled from the point
after the source file has been read into physical lines; returns
`(instructions, variables, declarations)`. -/
def parse_z_lines (z_file : String) (lines : List String) :
    Except CompilerError (List Instr × List String × Decls) := do
  let st ← parseGo z_file {} 1 lines
  let r := closeBlocksAux lines.length st.indentStack st.instructions
             st.currentFunction st.funcDepth
  .ok (r.2.1, st.varSet, st.declarations)

/-! ## Semantic validator (src/semantics.py)

The embedding covers the instruction kinds reached by the theorems below:
`INDENT`, `DEDENT`, `FOR`/`WHILE` loop starts, `END_LOOP`, `MOV`, and
`CONST` (which has no handler in the source and is skipped there too).
The remaining opcode handlers are not modelled; no theorem below runs the
validator on a stream containing them. -/

/-- `types_set` from src/semantics.py. -/
def types_set : List String := ["int", "float", "double", "string", "bool"]

/-- `array_types` from src/semantics.py. -/
def array_types : List String := ["Aint", "Afloat", "Adouble", "Abool", "Astring"]

/-- `array_type_map` from src/semantics.py. -/
def array_type_map : List (String × String) :=
  [("Aint", "int"), ("Afloat", "float"), ("Adouble", "double"),
   ("Abool", "bool"), ("Astring", "string")]

/-- Validator walk state (`SemanticAnalyzer` attributes). -/
structure SemState where
  currentFunction : Option String := none
  funcDepth : Nat := 0
  returnType : Option String := none
  inLoop : Bool := false
  declarations : Decls := []

/-- `SemanticAnalyzer._get_decl` (src/semantics.py, lines 90-124), including
its scope resolution exactly as written: when the resolved scope is `None`
(global code) neither lookup block runs and the function returns `None`. -/
def semGetDecl (decls : Decls) (currentFunction : Option String) (name : String)
    (scopeArg : Option String) : Option DeclInfo :=
  let scope :=
    match scopeArg with
    | some s => if s = "" then currentFunction else some s
    | none => currentFunction
  let try1 :=
    match scope with
    | some s =>
      if s ≠ "" then
        match dictGet (DeclKey.str (s ++ "_" ++ name)) decls with
        | some d => some d
        | none => dictGet (DeclKey.pair (some s) name) decls
      else none
    | none => none
  match try1 with
  | some d => some d
  | none =>
    match scope with
    | some _ =>
      match dictGet (DeclKey.str name) decls with
      | some d => some d
      | none => dictGet (DeclKey.pair none name) decls
    | none => none

/-- `SemanticAnalyzer._is_const`. -/
def semIsConst (decls : Decls) (cf : Option String) (name : String) : Bool :=
  match semGetDecl decls cf name none with
  | some d => d.const
  | none => false

/-- `SemanticAnalyzer._get_type` (with the array-access branch). -/
def semGetType (decls : Decls) (cf : Option String) (name : String) : Option String :=
  if strContains name "[" ∧ strContains name "]" then
    let arrayName := (pySplit name "[").headD ""
    match semGetDecl decls cf arrayName none with
    | none => none
    | some d =>
      match d.type with
      | some t => dictGet t array_type_map
      | none => none
  else (semGetDecl decls cf name none).bind (·.type)

/-- `SemanticAnalyzer._check_variable_exists`. -/
def checkVariableExists (zf : String) (decls : Decls) (cf : Option String) (name : String)
    (lineNum : Nat) : Except CompilerError Unit :=
  if strContains name "[" ∧ strContains name "]" then
    let arrayName := (pySplit name "[").headD ""
    if (semGetDecl decls cf arrayName none).isSome then .ok ()
    else .error ⟨"Array \x27" ++ arrayName ++ "\x27 not declared", some lineNum,
                 .UNDEFINED_SYMBOL, some zf⟩
  else if (semGetDecl decls cf name none).isSome then .ok ()
  else .error ⟨"Variable \x27" ++ name ++ "\x27 not declared", some lineNum,
               .UNDEFINED_SYMBOL, some zf⟩

/-- `SemanticAnalyzer._check_const_assignment`. -/
def checkConstAssignment (zf : String) (decls : Decls) (cf : Option String) (name : String)
    (lineNum : Nat) : Except CompilerError Unit :=
  if semIsConst decls cf name then
    .error ⟨"Cannot assign to const variable \x27" ++ name ++ "\x27", some lineNum,
            .INVALID_OPERATION, some zf⟩
  else .ok ()

/-- Python `str.isdigit()` on ASCII text. -/
def pyIsDigit (s : String) : Bool := chars s ≠ [] ∧ (chars s).all Char.isDigit

/-- Python `s.replace(a, b, 1)` for a one-character pattern. -/
def removeFirstChar (s : String) (c : Char) : String :=
  match pySplitOnce s (ofChars [c]) with
  | some (l, r) => l ++ r
  | none => s

/-- `SemanticAnalyzer._infer_type` on a string value. -/
def inferType (decls : Decls) (cf : Option String) (value : String) : Option String :=
  if value = "true" ∨ value = "false" then some "bool"
  else if pyIsDigit value then some "int"
  else if pyIsDigit (removeFirstChar value '.') then some "float"
  else if pyStartsWith value "\"" ∧ pyEndsWith value "\"" then some "string"
  else (semGetDecl decls cf value none).bind (·.type)

/-- `SemanticAnalyzer._check_type_compatibility`. -/
def checkTypeCompatibility (zf : String) (decls : Decls) (cf : Option String)
    (varName valueType : String) (lineNum : Nat) : Except CompilerError Unit :=
  match semGetType decls cf varName with
  | none => .ok ()
  | some varType =>
    if varType ∈ array_types then
      if ¬ valueType ∈ array_types ∧ valueType ≠ "null" then
        .error ⟨"Cannot assign " ++ valueType ++ " to array type " ++ varType,
                some lineNum, .TYPE_MISMATCH, some zf⟩
      else .ok ()
    else if varType ≠ valueType ∧ valueType ≠ "null" then
      .error ⟨"Type mismatch: cannot assign " ++ valueType ++ " to " ++ varType ++
              " variable \x27" ++ varName ++ "\x27", some lineNum, .TYPE_MISMATCH, some zf⟩
    else .ok ()

/-- `SemanticAnalyzer._check_value_type`. -/
def checkValueType (zf : String) (decls : Decls) (cf : Option String)
    (value expectedType : String) (lineNum : Nat) : Except CompilerError Unit :=
  match inferType decls cf value with
  | some vt =>
    if vt ≠ expectedType then
      .error ⟨"Expected " ++ expectedType ++ ", got " ++ vt, some lineNum,
              .TYPE_MISMATCH, some zf⟩
    else .ok ()
  | none => .ok ()

/-- `SemanticAnalyzer._handle_mov` (src/semantics.py, lines 308-332). -/
def handleMov (zf : String) (st : SemState) (operands : List String) (lineNum : Nat) :
    Except CompilerError Unit :=
  match operands with
  | o0 :: o1 :: rest =>
    if o0 ∈ types_set then
      match rest with
      | value :: _ => checkValueType zf st.declarations st.currentFunction value o0 lineNum
      | [] => .ok ()
    else do
      checkVariableExists zf st.declarations st.currentFunction o0 lineNum
      checkConstAssignment zf st.declarations st.currentFunction o0 lineNum
      match inferType st.declarations st.currentFunction o1 with
      | some vt => checkTypeCompatibility zf st.declarations st.currentFunction o0 vt lineNum
      | none => .ok ()
  | _ => .ok ()

/-- `SemanticAnalyzer._handle_loop_start`. -/
def handleLoopStart (zf : String) (st : SemState) (op : String) (operands : List String)
    (lineNum : Nat) : Except CompilerError Unit :=
  if op = "FOR" then
    match operands with
    | v :: o1 :: _ :: _ =>
      if o1 = ".." then do
        checkVariableExists zf st.declarations st.currentFunction v lineNum
        checkConstAssignment zf st.declarations st.currentFunction v lineNum
      else .ok ()
    | _ => .ok ()
  else .ok ()

/-- One step of `SemanticAnalyzer._process_instruction` for the modelled
opcode subset (`CONST` has no handler in the source, so it is skipped;
unmodelled handlers never occur in the streams evaluated below). -/
def semStep (zf : String) (st : SemState) : Instr → Except CompilerError SemState
  | ("INDENT", _, _) =>
    .ok { st with funcDepth := st.funcDepth + (if st.currentFunction.isSome then 1 else 0) }
  | ("DEDENT", _, _) =>
    let fd := st.funcDepth - 1
    if fd = 0 then .ok { st with funcDepth := 0, currentFunction := none, returnType := none }
    else .ok { st with funcDepth := fd }
  | ("FOR", operands, n) => do
    handleLoopStart zf { st with inLoop := true } "FOR" operands n
    .ok { st with inLoop := true }
  | ("WHILE", _, _) => .ok { st with inLoop := true }
  | ("END_LOOP", _, _) => .ok { st with inLoop := false }
  | ("MOV", operands, n) => do
    handleMov zf st operands n
    .ok st
  | (_, _, _) => .ok st

/-- `validate_const_and_types` (src/semantics.py, lines 868-880) over the
modelled opcode subset. -/
def validate_const_and_types (instructions : List Instr) (declarations : Decls)
    (z_file : String) : Except CompilerError Unit :=
  go { declarations := declarations } instructions
where
  go (st : SemState) : List Instr → Except CompilerError Unit
    | [] => .ok ()
    | i :: rest => do
      let st2 ← semStep z_file st i
      go st2 rest

/-! ## Code generator (src/codegen.py)

`generate_c_function_section` models the declaration pre-pass (lines
274-435) and the per-instruction emission loop (lines 461-1052) of
`generate_c_code`.  The fixed runtime preamble (a constant string list
containing no function named `main`) and the global-variable section are
not modelled; `initialLines` stands for the lines accumulated before the
loop.  The loop arms modelled are `FNDEF`, `DEDENT`, `MOV`, `CONST`,
`ADD`/`SUB`/`MUL`/`DIV`/`MOD` and `RET`; `INDENT` has no arm in the source
and emits nothing.  No theorem below evaluates other opcodes through it. -/

/-- `sanitize_identifier` (the `[^a-zA-Z0-9_]` substitution). -/
def sanitize_identifier (name : String) : String :=
  ofChars ((chars name).map (fun c => if c.isAlphanum ∨ c = '_' then c else '_'))

/-- The memoising cache access pattern
`if x not in cache: cache[x] = sanitize_identifier(x)`. -/
def cacheFetch (cache : List (String × String)) (x : String) :
    String × List (String × String) :=
  match dictGet x cache with
  | some v => (v, cache)
  | none => (sanitize_identifier x, cache ++ [(x, sanitize_identifier x)])

/-- Insert only when the key is absent (`if k not in d: d[k] = v`). -/
def dictInsertIfAbsent {α β : Type} [BEq α] (k : α) (v : β) (d : List (α × β)) :
    List (α × β) :=
  if (dictGet k d).isSome then d else d ++ [(k, v)]

/-- `get_c_type` (nested helper of `generate_c_code`). -/
def get_c_type (zType : String) : String :=
  if pyEndsWith zType "*" then zType
  else if zType = "string" then "const char*" else zType

/-- The parameter/return type list used by the code generator. -/
def normalTypes5 : List String := ["int", "double", "float", "bool", "string"]

/-- `format_parameters` (src/codegen.py, lines 9-28). -/
def format_parameters : List String → Except CompilerError (List String)
  | [] => .ok []
  | [t] =>
    .error ⟨"Parameter " ++ t ++ " must have explicit type", none, .TYPE_ERROR, none⟩
  | t :: nm :: rest =>
    if t ∈ normalTypes5 then do
      let cType := if t = "string" then "const char*" else t
      let tail ← format_parameters rest
      .ok ((cType ++ " " ++ sanitize_identifier nm) :: tail)
    else
      .error ⟨"Parameter " ++ t ++ " must have explicit type", none, .TYPE_ERROR, none⟩

/-- `add_overflow_check` (src/codegen.py, lines 49-77). -/
def add_overflow_check (pre operation a b res_var : String) (line_num : Nat) :
    List String :=
  if operation = "+" ∨ operation = "-" ∨ operation = "*" then
    [pre ++ "\x7b",
     pre ++ "    long long _temp = (long long)" ++ a ++ " " ++ operation ++
       " (long long)" ++ b ++ ";",
     pre ++ "    if (_temp > INT_MAX || _temp < INT_MIN) \x7b",
     pre ++ "        error_exit(" ++ toString ErrorCode.OVERFLOW.value ++
       ", \"Integer overflow in " ++ operation ++ " operation at line " ++
       toString line_num ++ "\");",
     pre ++ "    \x7d",
     pre ++ "    " ++ res_var ++ " = " ++ a ++ " " ++ operation ++ " " ++ b ++ ";",
     pre ++ "\x7d"]
  else
    [pre ++ res_var ++ " = " ++ a ++ " " ++ operation ++ " " ++ b ++ ";"]

/-- State of the declaration pre-pass (src/codegen.py, lines 274-417). -/
structure PrePassState where
  functionParams : List (String × List String) := []
  functionNames : List String := []
  localVars : List (String × List String) := []
  variableTypes : List (String × String) := []
  sanitizedCache : List (String × String) := []
  currentFunction : Option String := none
  funcDepth : Nat := 0
  declarations : Decls := []

/-- The parameter-type tracking loop inside the pre-pass FNDEF arm. -/
def trackParamTypes (vt : List (String × String)) :
    List String → Except CompilerError (List (String × String))
  | [] => .ok vt
  | [t] =>
    .error ⟨"Parameter " ++ t ++ " must have explicit type", none, .TYPE_ERROR, none⟩
  | t :: nm :: rest =>
    if t ∈ normalTypes5 then trackParamTypes (dictUpsert nm t vt) rest
    else .error ⟨"Parameter " ++ t ++ " must have explicit type", none, .TYPE_ERROR, none⟩

/-- The destination-registration loop (`for d in dests`) of the pre-pass. -/
def registerDests (st : PrePassState) : List String → PrePassState
  | [] => st
  | d :: rest =>
    let isParam : Bool :=
      match st.currentFunction with
      | some f => d ∈ (dictGet f st.functionParams).getD []
      | none => false
    if isParam then registerDests st rest
    else
      let (dClean, cache2) := cacheFetch st.sanitizedCache d
      let st2 := { st with sanitizedCache := cache2 }
      let st3 :=
        if ¬ is_number dClean ∧ is_identifier dClean then
          match st2.currentFunction with
          | some f =>
            { st2 with localVars :=
                dictUpsert f (setInsert dClean ((dictGet f st2.localVars).getD [])) st2.localVars }
          | none => st2
        else st2
      registerDests st3 rest

/-- One step of the pre-pass loop. -/
def prePassStep (st : PrePassState) : Instr → Except CompilerError PrePassState
  | ("FNDEF", operands, _) => do
    let fname := operands.headD ""
    let hasRet := operands.length > 1 ∧ (operands.getLastD "") ∈ normalTypes5
    let params := if hasRet then operands.tail.dropLast else operands.tail
    let vt2 ← trackParamTypes st.variableTypes params
    .ok { st with
      functionNames := setInsert fname st.functionNames,
      currentFunction := some fname, funcDepth := 0,
      functionParams := dictUpsert fname params st.functionParams,
      localVars := dictUpsert fname [] st.localVars,
      variableTypes := vt2 }
  | ("INDENT", _, _) =>
    if st.currentFunction.isSome then .ok { st with funcDepth := st.funcDepth + 1 }
    else .ok st
  | ("DEDENT", _, _) =>
    if st.currentFunction.isSome then
      let fd2 := st.funcDepth - 1
      if fd2 = 0 then .ok { st with funcDepth := 0, currentFunction := none }
      else .ok { st with funcDepth := fd2 }
    else .ok st
  | (op, operands, line_num) =>
    if st.currentFunction.isSome ∨ op = "MOV" then
      let (st1, dests) :
          PrePassState × List String :=
        if op = "MOV" then
          match operands with
          | t :: dest :: _ =>
            if t ∈ typeKeywords then
              ({ st with variableTypes := dictInsertIfAbsent dest t st.variableTypes }, [dest])
            else if operands.length = 2 then (st, [t])
            else (st, [])
          | _ => (st, [])
        else if op = "CONST" then
          match operands with
          | t :: dest :: _ =>
            if t ∈ typeKeywords then
              ({ st with
                  declarations := dictUpsert (DeclKey.pair st.currentFunction dest)
                    { const := true, type := some t, line := line_num } st.declarations,
                  variableTypes := dictInsertIfAbsent dest t st.variableTypes }, [dest])
            else (st, [])
          | _ => (st, [])
        else if op = "ADD" ∨ op = "SUB" ∨ op = "MUL" ∨ op = "DIV" ∨ op = "MOD" then
          match operands with
          | [a, b, res] =>
            let resType :=
              match dictGet res st.variableTypes with
              | some t => t
              | none =>
                let aType := (dictGet a st.variableTypes).getD "double"
                let bType := (dictGet b st.variableTypes).getD "double"
                if aType = "int" ∧ bType = "int" ∧ op ≠ "DIV" then "int"
                else if aType = "double" ∨ bType = "double" then "double"
                else if aType = "bool" ∨ bType = "bool" then "int"
                else "double"
            ({ st with variableTypes := dictInsertIfAbsent res resType st.variableTypes }, [res])
          | _ => (st, [])
        else (st, [])
      .ok (registerDests st1 dests)
    else .ok st

/-- The declaration pre-pass over the whole stream. -/
def prePass (declarations : Decls) : List Instr → Except CompilerError PrePassState :=
  go { declarations := declarations }
where
  go (st : PrePassState) : List Instr → Except CompilerError PrePassState
    | [] => .ok st
    | i :: rest => do
      let st2 ← prePassStep st i
      go st2 rest

/-- `is_const` (nested helper of `generate_c_code`; tuple keys only). -/
def cgIsConst (decls : Decls) (scope : Option String) (name : String) : Bool :=
  match dictGet (DeclKey.pair scope name) decls with
  | some d => d.const
  | none =>
    match dictGet (DeclKey.pair none name) decls with
    | some d => d.const
    | none => false

/-- `get_var_type` (nested helper of `generate_c_code`). -/
def cgGetVarType (decls : Decls) (scope : Option String) (name : String) : String :=
  if name = "true" ∨ name = "false" then "bool"
  else
    match dictGet (DeclKey.pair scope name) decls with
    | some d => d.type.getD "double"
    | none =>
      match dictGet (DeclKey.pair none name) decls with
      | some d => d.type.getD "double"
      | none => "double"

/-- Sorting of local-variable names (Python `sorted` on strings). -/
def charsLt : List Char → List Char → Bool
  | [], [] => false
  | [], _ :: _ => true
  | _ :: _, [] => false
  | a :: x, b :: y => if a = b then charsLt x y else a.toNat < b.toNat

/-- String comparison by code points. -/
def strLt (a b : String) : Bool := charsLt (chars a) (chars b)

/-- Insertion into a sorted list. -/
def insertSorted (x : String) : List String → List String
  | [] => [x]
  | y :: t => if strLt x y then x :: y :: t else y :: insertSorted x t

/-- Python `sorted` on a list of strings. -/
def sortedStrings (l : List String) : List String := l.foldl (fun acc x => insertSorted x acc) []

/-- The zero-initialisation defaults used when declaring locals / MOV / CONST
without an initialiser. -/
def defaultInit (varType : String) : String :=
  if varType = "string" then "NULL"
  else if varType = "int" then "0"
  else if varType = "bool" then "false"
  else "0.0"

/-- Emission-loop state (`c_lines`, `indent_level`, `func_stack` and the
run-scoped caches). -/
structure CGState where
  cLines : List String := []
  indentLevel : Nat := 0
  funcStack : List String := []
  sanitizedCache : List (String × String) := []
  variableTypes : List (String × String) := []

/-- `"    " * indent_level`. -/
def indentPre : Nat → String
  | 0 => ""
  | n + 1 => "    " ++ indentPre n

/-- Local-variable declarations emitted at function entry (the loop inside
the FNDEF arm; const locals are skipped there). -/
def localDeclLines (decls : Decls) (rawName : String) (pre : String) :
    List String → List String
  | [] => []
  | v :: rest =>
    let varType := cgGetVarType decls (some rawName) v
    let cType := get_c_type varType
    if cgIsConst decls (some rawName) v then localDeclLines decls rawName pre rest
    else
      (pre ++ "    " ++ cType ++ " " ++ v ++ " = " ++ defaultInit varType ++ ";") ::
        localDeclLines decls rawName pre rest

/-- Map from array type names to C element types (MOV array-access branch). -/
def arrCTypeMap : List (String × String) :=
  [("Aint", "int"), ("Afloat", "float"), ("Adouble", "double"),
   ("Abool", "bool"), ("Astring", "const char*")]

/-- One step of the emission loop of `generate_c_code`
(src/codegen.py, lines 466-1045) for the modelled opcode subset. -/
def genStep (decls : Decls) (localVars : List (String × List String)) (st : CGState) :
    Instr → Except CompilerError CGState
  | (op, operands, line_num) =>
    let pre := indentPre st.indentLevel
    if op = "FNDEF" then
      let rawName := operands.headD ""
      let isMain := rawName = "main"
      let cache1 :=
        if ¬ isMain then (cacheFetch st.sanitizedCache rawName).2 else st.sanitizedCache
      let fname := if isMain then "main" else "z_" ++ ((dictGet rawName cache1).getD rawName)
      let hasRet := operands.length > 1 ∧ (operands.getLastD "") ∈ normalTypes5
      let retType := if hasRet then operands.getLastD "" else if isMain then "int" else "double"
      let params := if hasRet then operands.tail.dropLast else operands.tail
      let cRetType := get_c_type retType
      match (if isMain then Except.ok "void"
             else (format_parameters params).map (joinWith ", ")) with
      | .error e => .error e
      | .ok paramStr =>
        let header := pre ++ cRetType ++ " " ++ fname ++ "(" ++ paramStr ++ ") \x7b"
        let locals := sortedStrings ((dictGet rawName localVars).getD [])
        .ok { st with
          cLines := st.cLines ++ [header] ++ localDeclLines decls rawName pre locals,
          sanitizedCache := cache1,
          funcStack := rawName :: st.funcStack,
          indentLevel := st.indentLevel + 1 }
    else if op = "DEDENT" then
      let lvl2 := st.indentLevel - 1
      match st.funcStack with
      | closing :: restStack =>
        if lvl2 = 0 then
          let retLines := if closing = "main" then [pre ++ "    " ++ "return 0;"] else []
          .ok { st with cLines := st.cLines ++ retLines ++ [pre ++ "\x7d"],
                        indentLevel := lvl2, funcStack := restStack }
        else
          .ok { st with cLines := st.cLines ++ [pre ++ "\x7d"], indentLevel := lvl2 }
      | [] =>
        .ok { st with cLines := st.cLines ++ [pre ++ "\x7d"], indentLevel := lvl2 }
    else if op = "MOV" then
      match operands with
      | t :: dest :: restOps =>
        if t ∈ typeKeywords then
          let (destSafe, cache2) := cacheFetch st.sanitizedCache dest
          let expr := if restOps ≠ [] then joinWith " " restOps else defaultInit t
          let isStringLiteral := pyStartsWith expr "\"" ∧ pyEndsWith expr "\""
          let isRedecl := st.cLines.any (fun l =>
            pyStartsWith (pyStrip l) (t ++ " " ++ destSafe ++ " =") ∨
            pyStartsWith (pyStrip l) ("const char* " ++ destSafe ++ " ="))
          let newLine :=
            if isStringLiteral then
              if ¬ isRedecl then pre ++ "const char* " ++ destSafe ++ " = " ++ expr ++ ";"
              else pre ++ destSafe ++ " = " ++ expr ++ ";"
            else
              if ¬ isRedecl then pre ++ t ++ " " ++ destSafe ++ " = " ++ expr ++ ";"
              else pre ++ destSafe ++ " = " ++ expr ++ ";"
          .ok { st with cLines := st.cLines ++ [newLine], sanitizedCache := cache2,
                        variableTypes := dictInsertIfAbsent destSafe t st.variableTypes }
        else
          match operands with
          | [dest2, expr] =>
            if pyStartsWith dest2 "*" then
              let ptrName := strDrop dest2 1
              let (ptrSafe, cache2) := cacheFetch st.sanitizedCache ptrName
              .ok { st with
                cLines := st.cLines ++ [pre ++ "*" ++ ptrSafe ++ " = " ++ dest2 ++ ";"],
                sanitizedCache := cache2 }
            else if strContains expr "[" ∧ strContains expr "]" ∧ ¬ strContains expr "=" ∧
                ¬ strContains expr "==" ∧ ¬ strContains expr "!=" then
              let arrayName := (pySplit expr "[").headD ""
              let arrayIdx :=
                (pySplit ((pySplit expr "[").getD 1 "") "]").headD ""
              let arrayType := (dictGet arrayName st.variableTypes).getD "Aint"
              let cType := (dictGet arrayType arrCTypeMap).getD "int"
              let (destSafe, cache2) := cacheFetch st.sanitizedCache dest2
              .ok { st with
                cLines := st.cLines ++ [pre ++ cType ++ " " ++ destSafe ++ " = *((" ++
                  cType ++ "*)array_get(" ++ arrayName ++ ", " ++ arrayIdx ++ "));"],
                sanitizedCache := cache2,
                variableTypes := dictInsertIfAbsent destSafe cType st.variableTypes }
            else
              let (destSafe, cache2) := cacheFetch st.sanitizedCache dest2
              let isRedecl := st.cLines.any (fun l =>
                pyStartsWith (pyStrip l) (destSafe ++ " =") ∨
                pyStartsWith (pyStrip l) ("int " ++ destSafe ++ " =") ∨
                pyStartsWith (pyStrip l) ("double " ++ destSafe ++ " =") ∨
                pyStartsWith (pyStrip l) ("const char* " ++ destSafe ++ " ="))
              if ¬ isRedecl ∧ (dictGet destSafe st.variableTypes).isNone then
                .ok { st with
                  cLines := st.cLines ++ [pre ++ "int " ++ destSafe ++ " = " ++ expr ++ ";"],
                  sanitizedCache := cache2,
                  variableTypes := dictInsertIfAbsent destSafe "int" st.variableTypes }
              else
                .ok { st with
                  cLines := st.cLines ++ [pre ++ destSafe ++ " = " ++ expr ++ ";"],
                  sanitizedCache := cache2 }
          | _ => .ok st
      | _ => .ok st
    else if op = "CONST" then
      match operands with
      | t :: dest :: restOps =>
        if t ∈ typeKeywords then
          let (destSafe, cache2) := cacheFetch st.sanitizedCache dest
          let expr := if restOps ≠ [] then joinWith " " restOps else defaultInit t
          let newLine :=
            if t = "string" then pre ++ "const char* " ++ destSafe ++ " = " ++ expr ++ ";"
            else pre ++ "const " ++ t ++ " " ++ destSafe ++ " = " ++ expr ++ ";"
          .ok { st with cLines := st.cLines ++ [newLine], sanitizedCache := cache2 }
        else .ok st
      | _ => .ok st
    else if op = "ADD" ∨ op = "SUB" ∨ op = "MUL" ∨ op = "DIV" ∨ op = "MOD" then
      match operands with
      | [a, b, res] =>
        let sym :=
          if op = "ADD" then "+" else if op = "SUB" then "-" else if op = "MUL" then "*"
          else if op = "DIV" then "/" else "%"
        let (resSafe, cache2) := cacheFetch st.sanitizedCache res
        .ok { st with
          cLines := st.cLines ++ add_overflow_check pre sym a b resSafe line_num,
          sanitizedCache := cache2 }
      | _ =>
        .error ⟨"internal: operand unpacking failed", some line_num, .COMPILER_BUG, none⟩
    else if op = "RET" then
      let retVal := operands.headD "0"
      .ok { st with cLines := st.cLines ++ [pre ++ "return " ++ retVal ++ ";"] }
    else .ok st

/-- The trailing `while func_stack:` close-out (src/codegen.py, lines
1046-1050; the emitted lines carry no indentation prefix there). -/
def closeFuncStack (cLines : List String) : List String → List String
  | [] => cLines
  | closing :: rest =>
    let cLines2 := if closing = "main" then cLines ++ ["return 0;"] else cLines
    closeFuncStack (cLines2 ++ ["\x7d"]) rest

/-- The function-section part of `generate_c_code`: declaration pre-pass,
then the per-instruction emission loop, then the close-out. -/
def generate_c_function_section (instructions : List Instr) (declarations : Decls)
    (initialLines : List String) : Except CompilerError (List String) := do
  let pp ← prePass declarations instructions
  let st0 : CGState :=
    { cLines := initialLines, sanitizedCache := pp.sanitizedCache,
      variableTypes := pp.variableTypes }
  let stF ← go pp.declarations pp.localVars st0 instructions
  .ok (closeFuncStack stF.cLines stF.funcStack)
where
  go (decls : Decls) (lv : List (String × List String)) (st : CGState) :
      List Instr → Except CompilerError CGState
    | [] => .ok st
    | i :: rest => do
      let st2 ← genStep decls lv st i
      go decls lv st2 rest

/-! ## Derived definitions used by the theorems -/

/-- The arithmetic table of `fold_constant_expression` (value level):
true division for DIV, Python float-`%` semantics for MOD. -/
def foldOp (op : String) (a b : ℚ) : ℚ :=
  if op = "ADD" then a + b
  else if op = "SUB" then a - b
  else if op = "MUL" then a * b
  else if op = "DIV" then a / b
  else ratMod a b

/-- Running block depth of an instruction stream: `some` of the final depth
when no prefix closes more blocks than were opened, `none` otherwise. -/
def balAux (d : Nat) : List Instr → Option Nat
  | [] => some d
  | (op, _, _) :: rest =>
    if op = "INDENT" then balAux (d + 1) rest
    else if op = "DEDENT" then (if d = 0 then none else balAux (d - 1) rest)
    else balAux d rest

/-- Number of instructions with a given opcode. -/
def countOp (opName : String) (l : List Instr) : Nat :=
  (l.filter (fun i => i.1 = opName)).length

/-- Well-formedness of the sanitised-identifier cache. -/
def cacheWF (c : List (String × String)) : Prop :=
  ∀ p ∈ c, p.2 = sanitize_identifier p.1

/-- The C symbol chosen for an arithmetic opcode in the emission loop. -/
def arithSym (op : String) : String :=
  if op = "ADD" then "+" else if op = "SUB" then "-" else if op = "MUL" then "*"
  else if op = "DIV" then "/" else "%"

/-! ## Theorems -/

/-- C1: the spec requires a const-violation at line 2 for the two-line
program `CONST int x 5` / `MOV x 10`, regardless of optimization.  The
code disagrees on both paths: run directly on the lexer output, the
validator reports an undefined-symbol error (not a const violation) at
line 2, because `_get_decl` never consults the global table when the
resolved scope is `None`; run after the optimizer, the reassignment
`MOV x 10` has been deleted as a dead store (dead-store elimination reads
the operand list as `[value, dest]` while the lexer emits `[dest, expr]`),
so validation passes with no error at all. -/
theorem const_violation_global_scope_bug :
    parse_z_lines "test.z" ["CONST int x 5", "MOV x 10"] =
      .ok ([("CONST", ["int", "x", "5"], 1), ("MOV", ["x", "10"], 2)], ["x"],
           [(DeclKey.pair none "x", { const := true, type := some "int", line := 1 })]) ∧
    validate_const_and_types
      [("CONST", ["int", "x", "5"], 1), ("MOV", ["x", "10"], 2)]
      [(DeclKey.pair none "x", { const := true, type := some "int", line := 1 })] "test.z" =
      .error ⟨"Variable \x27x\x27 not declared", some 2, .UNDEFINED_SYMBOL, some "test.z"⟩ ∧
    optimize_instructions
      [("CONST", ["int", "x", "5"], 1), ("MOV", ["x", "10"], 2)] "test.z" =
      .ok [("CONST", ["int", "x", "5"], 1)] ∧
    validate_const_and_types [("CONST", ["int", "x", "5"], 1)]
      [(DeclKey.pair none "x", { const := true, type := some "int", line := 1 })] "test.z" =
      .ok () :=
  ⟨by with_unfolding_all rfl, by with_unfolding_all rfl,
   by with_unfolding_all rfl, by with_unfolding_all rfl⟩

/-- C2 counterexample: the optimizer is not idempotent.  On a four-deep
constant dependency chain the three bounded rounds stop before the
fixpoint, and re-optimizing the returned stream optimizes it further. -/
theorem optimizer_not_idempotent_counterexample :
    optimize_instructions
      [("ADD", ["1", "1", "a"], 1), ("ADD", ["a", "a", "b"], 2), ("ADD", ["b", "b", "c"], 3),
       ("ADD", ["c", "c", "d"], 4), ("PRINT", ["d"], 5)] "test.z" =
      .ok [("MOV", ["8.0", "c"], 3), ("ADD", ["c", "c", "d"], 4), ("PRINT", ["d"], 5)] ∧
    optimize_instructions
      [("MOV", ["8.0", "c"], 3), ("ADD", ["c", "c", "d"], 4), ("PRINT", ["d"], 5)] "test.z" =
      .ok [("PRINT", ["16.0"], 5)] ∧
    ([("PRINT", ["16.0"], 5)] : List Instr) ≠
      [("MOV", ["8.0", "c"], 3), ("ADD", ["c", "c", "d"], 4), ("PRINT", ["d"], 5)] :=
  ⟨by with_unfolding_all rfl, by with_unfolding_all rfl, by decide⟩

/-- Every list zipped with itself passes the element-wise equality test. -/
theorem zip_self_all_eq (l : List Instr) :
    (l.zip l).all (fun p => decide (p.1 = p.2)) = true := by
  induction l with
  | nil => rfl
  | cons x t ih => simpa using ih

/-- C2 (amended): `optimize_instructions` returns a stream unchanged
whenever each of its four passes leaves that stream unchanged; idempotence
holds on such pass-fixpoints but not in general (see the counterexample). -/
theorem optimizer_noop_on_pass_fixpoints (s : List Instr) (zf : String)
    (h1 : constant_propagation s zf = s) (h2 : dead_code_elimination s = s)
    (h3 : strength_reduction s = s) (h4 : folding_pass zf s = .ok s) :
    optimize_instructions s zf = .ok s := by
  unfold optimize_instructions
  by_cases hs : s = []
  · subst hs; rfl
  · rw [if_neg hs]
    show optimizeRounds zf 3 s = .ok s
    unfold optimizeRounds
    simp only [h1, h2, h3, h4]
    show (if s.length = s.length ∧ ((s.zip s).all fun p => decide (p.1 = p.2)) = true
          then Except.ok s else optimizeRounds zf 2 s) = Except.ok s
    rw [if_pos ⟨rfl, zip_self_all_eq s⟩]

/-- C2 witness: a stream fixed by every pass, on which the optimizer is a
no-op. -/
theorem optimizer_noop_on_pass_fixpoints_witness :
    constant_propagation [("PRINT", ["x"], 1)] "test.z" = [("PRINT", ["x"], 1)] ∧
    dead_code_elimination [("PRINT", ["x"], 1)] = [("PRINT", ["x"], 1)] ∧
    strength_reduction [("PRINT", ["x"], 1)] = [("PRINT", ["x"], 1)] ∧
    folding_pass "test.z" [("PRINT", ["x"], 1)] = .ok [("PRINT", ["x"], 1)] ∧
    optimize_instructions [("PRINT", ["x"], 1)] "test.z" = .ok [("PRINT", ["x"], 1)] :=
  ⟨by with_unfolding_all rfl, by with_unfolding_all rfl, by with_unfolding_all rfl,
   by with_unfolding_all rfl,
   optimizer_noop_on_pass_fixpoints _ _ (by with_unfolding_all rfl)
     (by with_unfolding_all rfl) (by with_unfolding_all rfl) (by with_unfolding_all rfl)⟩

/-- C3: for Scenario C (`MOV int a 5`; `MOV int b 0`; `DIV a b c`) the
optimizer raises nothing: constant propagation records bindings only from
two-operand `MOV [literal, dest]` instructions (its own folded form), never
from the lexer's three-operand typed declarations, so the division's
operands stay symbolic and the zero check in `fold_constant_expression`
(third conjunct: it does fire on literal operands) is never reached. -/
theorem div_by_zero_scenario_not_detected :
    parse_z_lines "test.z" ["MOV int a 5", "MOV int b 0", "DIV a b c"] =
      .ok ([("MOV", ["int", "a", "5"], 1), ("MOV", ["int", "b", "0"], 2),
            ("DIV", ["a", "b", "c"], 3)], ["a", "b", "c"],
           [(DeclKey.pair none "a", { const := false, type := some "int", line := 1 }),
            (DeclKey.pair none "b", { const := false, type := some "int", line := 2 })]) ∧
    optimize_instructions
      [("MOV", ["int", "a", "5"], 1), ("MOV", ["int", "b", "0"], 2),
       ("DIV", ["a", "b", "c"], 3)] "test.z" =
      .ok [("MOV", ["int", "a", "5"], 1), ("MOV", ["int", "b", "0"], 2),
           ("DIV", ["a", "b", "c"], 3)] ∧
    fold_constant_expression "DIV" ["5", "0", "c"] 3 "test.z" =
      .error ⟨"Division by zero in constant expression", some 3,
              .DIVISION_BY_ZERO, some "test.z"⟩ :=
  ⟨by with_unfolding_all rfl, by with_unfolding_all rfl, by with_unfolding_all rfl⟩

/-- C4: for Scenario B (`MOV int a 2`; `MUL a 2 b`; `PRINT b`) the optimizer
returns the stream unchanged — no literal move of `4` into `b` is produced,
because constant propagation never records the typed declaration of `a`
(same root cause as Scenario C), so the `MUL` still has the symbolic
operand `a` and is not folded. -/
theorem constant_folding_scenario_not_applied :
    parse_z_lines "test.z" ["MOV int a 2", "MUL a 2 b", "PRINT b"] =
      .ok ([("MOV", ["int", "a", "2"], 1), ("MUL", ["a", "2", "b"], 2),
            ("PRINT", ["b"], 3)], ["a", "b"],
           [(DeclKey.pair none "a", { const := false, type := some "int", line := 1 })]) ∧
    optimize_instructions
      [("MOV", ["int", "a", "2"], 1), ("MUL", ["a", "2", "b"], 2),
       ("PRINT", ["b"], 3)] "test.z" =
      .ok [("MOV", ["int", "a", "2"], 1), ("MUL", ["a", "2", "b"], 2),
           ("PRINT", ["b"], 3)] ∧
    ([("MOV", ["int", "a", "2"], 1), ("MUL", ["a", "2", "b"], 2),
      ("PRINT", ["b"], 3)].all
        (fun i => ¬ (i.1 = "MOV" ∧ i.2.1.length = 2))) = true :=
  ⟨by with_unfolding_all rfl, by with_unfolding_all rfl, by decide⟩

/-- A string accepted by the float parser passes `is_numeric_operand`. -/
theorem is_numeric_of_parse {x : String} {q : ℚ} (h : pyFloatQ? x = some q) :
    is_numeric_operand x = true := by
  unfold is_numeric_operand
  cases hc : chars x with
  | nil =>
    exfalso
    unfold pyFloatQ? at h
    rw [hc] at h
    simp [parseUnsigned, takeDigits] at h
  | cons c t =>
    have hx : ofChars (c :: t) = x := by rw [← hc]; rfl
    simp only [List.length_cons]
    simp [isNumericAux, hx, h]

/-- C5 counterexample: under the full optimizer, a three-operand ADD with
two literal sources is NOT left as a MOV of the computed result — the move
created by the folding pass is deleted again as a dead store in the next
round, so the whole instruction vanishes from the output. -/
theorem folded_move_eliminated_counterexample :
    optimize_instructions [("ADD", ["1", "2", "c"], 1)] "test.z" = .ok [] :=
  by with_unfolding_all rfl

/-- C5 (amended): the constant-folding pass of the optimizer replaces an
ADD/SUB/MUL/DIV/MOD with three operands whose two source operands are
numeric literals by a MOV of the computed double-precision result into the
destination, and raises a categorized DIVISION_BY_ZERO compile-time error
on a literal-zero divisor or modulus.  The statement is scoped to the
fragment on which the exact-rational embedding coincides with the
program's IEEE float64 arithmetic and printing: both operands are plain
decimal digit literals (no sign, point or exponent, so parsing is exact
and no underflow to zero can occur) of value at most `2 ^ 53`, and in the
non-error case the exact result is an integer of magnitude at most
`2 ^ 53` — such inputs and results are represented exactly by doubles,
every one of the five operations rounds to the exact value there, and
Python `str()` prints such a value as the integer followed by `.0`, which
is what `pyFloatStr` produces.  The surrounding optimizer may afterwards
delete the produced move as a dead store (see the counterexample) or
pre-empt folding by strength reduction when the first operand is `0`, `1`
or `2`. -/
theorem folding_pass_replaces_literal_arith (op a b d : String) (n : Nat) (zf : String)
    (qa qb : ℚ) (hop : op = "ADD" ∨ op = "SUB" ∨ op = "MUL" ∨ op = "DIV" ∨ op = "MOD")
    (ha : pyFloatQ? a = some qa) (hb : pyFloatQ? b = some qb)
    (haDigits : (chars a).all Char.isDigit = true)
    (hbDigits : (chars b).all Char.isDigit = true)
    (haRange : qa ≤ 2 ^ 53) (hbRange : qb ≤ 2 ^ 53)
    (hres : ¬ ((op = "DIV" ∨ op = "MOD") ∧ qb = 0) →
      (foldOp op qa qb).den = 1 ∧ |foldOp op qa qb| ≤ 2 ^ 53) :
    ((op = "DIV" ∨ op = "MOD") ∧ qb = 0 →
      folding_pass zf [(op, [a, b, d], n)] =
        .error ⟨(if op = "DIV" then "Division by zero in constant expression"
                 else "Modulo by zero in constant expression"), some n,
                .DIVISION_BY_ZERO, some zf⟩) ∧
    (¬ ((op = "DIV" ∨ op = "MOD") ∧ qb = 0) →
      folding_pass zf [(op, [a, b, d], n)] =
        .ok [("MOV", [pyFloatStr (foldOp op qa qb), d], n)]) := by
  have hna := is_numeric_of_parse ha
  have hnb := is_numeric_of_parse hb
  have hmap : List.mapM pyFloatQ? [a, b] = some [qa, qb] := by
    simp [List.mapM, List.mapM.loop, ha, hb]
  rcases hop with rfl | rfl | rfl | rfl | rfl
  · refine ⟨by rintro ⟨h | h, -⟩ <;> simp at h, fun _ => ?_⟩
    unfold folding_pass
    rw [if_pos ⟨Or.inl rfl, by simp⟩]
    unfold fold_constant_expression
    simp only [List.dropLast, List.all_cons, List.all_nil, hna, hnb]
    simp only [Bool.and_true, Bool.true_and, not_true_eq_false, Bool.false_eq_true, if_false]
    rw [hmap]
    simp [folding_pass, foldOp, bind, Except.bind]
  · refine ⟨by rintro ⟨h | h, -⟩ <;> simp at h, fun _ => ?_⟩
    unfold folding_pass
    rw [if_pos ⟨Or.inr (Or.inl rfl), by simp⟩]
    unfold fold_constant_expression
    simp only [List.dropLast, List.all_cons, List.all_nil, hna, hnb]
    simp only [Bool.and_true, Bool.true_and, not_true_eq_false, Bool.false_eq_true, if_false]
    rw [hmap]
    simp [folding_pass, foldOp, bind, Except.bind]
  · refine ⟨by rintro ⟨h | h, -⟩ <;> simp at h, fun _ => ?_⟩
    unfold folding_pass
    rw [if_pos ⟨Or.inr (Or.inr (Or.inl rfl)), by simp⟩]
    unfold fold_constant_expression
    simp only [List.dropLast, List.all_cons, List.all_nil, hna, hnb]
    simp only [Bool.and_true, Bool.true_and, not_true_eq_false, Bool.false_eq_true, if_false]
    rw [hmap]
    simp [folding_pass, foldOp, bind, Except.bind]
  · by_cases hz : qb = 0
    · refine ⟨fun _ => ?_, fun hcon => absurd ⟨Or.inl rfl, hz⟩ hcon⟩
      unfold folding_pass
      rw [if_pos ⟨Or.inr (Or.inr (Or.inr (Or.inl rfl))), by simp⟩]
      unfold fold_constant_expression
      simp only [List.dropLast, List.all_cons, List.all_nil, hna, hnb]
      simp only [Bool.and_true, Bool.true_and, not_true_eq_false, Bool.false_eq_true, if_false]
      rw [hmap]
      simp [hz, bind, Except.bind]
    · refine ⟨by rintro ⟨-, h⟩; exact absurd h hz, fun _ => ?_⟩
      unfold folding_pass
      rw [if_pos ⟨Or.inr (Or.inr (Or.inr (Or.inl rfl))), by simp⟩]
      unfold fold_constant_expression
      simp only [List.dropLast, List.all_cons, List.all_nil, hna, hnb]
      simp only [Bool.and_true, Bool.true_and, not_true_eq_false, Bool.false_eq_true, if_false]
      rw [hmap]
      simp [hz, folding_pass, foldOp, bind, Except.bind]
  · by_cases hz : qb = 0
    · refine ⟨fun _ => ?_, fun hcon => absurd ⟨Or.inr rfl, hz⟩ hcon⟩
      unfold folding_pass
      rw [if_pos ⟨Or.inr (Or.inr (Or.inr (Or.inr rfl))), by simp⟩]
      unfold fold_constant_expression
      simp only [List.dropLast, List.all_cons, List.all_nil, hna, hnb]
      simp only [Bool.and_true, Bool.true_and, not_true_eq_false, Bool.false_eq_true, if_false]
      rw [hmap]
      simp [hz, bind, Except.bind]
    · refine ⟨by rintro ⟨-, h⟩; exact absurd h hz, fun _ => ?_⟩
      unfold folding_pass
      rw [if_pos ⟨Or.inr (Or.inr (Or.inr (Or.inr rfl))), by simp⟩]
      unfold fold_constant_expression
      simp only [List.dropLast, List.all_cons, List.all_nil, hna, hnb]
      simp only [Bool.and_true, Bool.true_and, not_true_eq_false, Bool.false_eq_true, if_false]
      rw [hmap]
      simp [hz, folding_pass, foldOp, bind, Except.bind]

/-- C5 witness: `DIV 6 2 c` lies in the exact fragment (digit literals,
values and integral result within `2 ^ 53`) and is folded by the pass into
`MOV 3.0 c`. -/
theorem folding_pass_replaces_literal_arith_witness :
    pyFloatQ? "6" = some 6 ∧ pyFloatQ? "2" = some 2 ∧
    (chars "6").all Char.isDigit = true ∧ (chars "2").all Char.isDigit = true ∧
    (6 : ℚ) ≤ 2 ^ 53 ∧ (2 : ℚ) ≤ 2 ^ 53 ∧
    (foldOp "DIV" 6 2).den = 1 ∧ |foldOp "DIV" 6 2| ≤ 2 ^ 53 ∧
    folding_pass "test.z" [("DIV", ["6", "2", "c"], 1)] =
      .ok [("MOV", [pyFloatStr (foldOp "DIV" 6 2), "c"], 1)] :=
  ⟨by with_unfolding_all rfl, by with_unfolding_all rfl,
   by with_unfolding_all rfl, by with_unfolding_all rfl,
   by norm_num, by norm_num,
   by with_unfolding_all rfl,
   by rw [show foldOp "DIV" 6 2 = 3 from by with_unfolding_all rfl]; norm_num,
   (folding_pass_replaces_literal_arith "DIV" "6" "2" "c" 1 "test.z" 6 2
      (Or.inr (Or.inr (Or.inr (Or.inl rfl))))
      (by with_unfolding_all rfl) (by with_unfolding_all rfl)
      (by with_unfolding_all rfl) (by with_unfolding_all rfl)
      (by norm_num) (by norm_num)
      (fun _ => ⟨by with_unfolding_all rfl,
        by rw [show foldOp "DIV" 6 2 = 3 from by with_unfolding_all rfl]; norm_num⟩)).2
     (fun hcon => absurd hcon.2 (by norm_num))⟩

/-- C7 counterexample: the code generator does not rename the entry-point
function.  For a program defining `main`, the emitted definition line is
`int main(void) {` — the entry function itself becomes the C `main` — and
no renamed symbol `z_main` (and hence no wrapper calling one) appears
anywhere in the emitted function section. -/
theorem entry_function_not_renamed_counterexample :
    generate_c_function_section
      [("FNDEF", ["main"], 1), ("INDENT", [], 2), ("RET", ["0"], 2), ("DEDENT", [], 2)]
      [] [] =
      .ok ["int main(void) \x7b", "    return 0;", "        return 0;", "    \x7d"] ∧
    (["int main(void) \x7b", "    return 0;", "        return 0;", "    \x7d"].all
      (fun l => ¬ strContains l "z_main")) = true :=
  ⟨by with_unfolding_all rfl, by decide⟩

/-- C7 (amended): the entry-point function is emitted directly as the C
`main` (return type `int`, parameter list `void`, a `return 0;` inserted
when its body closes); every other function is emitted under a `z_` prefix;
no separate wrapper `main` is generated. -/
theorem entry_function_emitted_as_c_main :
    generate_c_function_section
      [("FNDEF", ["main"], 1), ("INDENT", [], 2), ("RET", ["0"], 2), ("DEDENT", [], 3),
       ("FNDEF", ["helper", "int", "a", "int"], 3), ("INDENT", [], 4), ("RET", ["a"], 4),
       ("DEDENT", [], 4)] [] [] =
      .ok ["int main(void) \x7b", "    return 0;", "        return 0;", "    \x7d",
           "int z_helper(int a) \x7b", "    return a;", "    \x7d"] :=
  by with_unfolding_all rfl

/-- Successful `Except` bind factors through a successful first stage. -/
theorem except_bind_ok {α β : Type} {x : Except CompilerError α} {f : α → Except CompilerError β}
    {b : β} (h : (x >>= f) = .ok b) : ∃ a, x = .ok a ∧ f a = .ok b := by
  cases x with
  | error e => simp [bind, Except.bind] at h
  | ok a => exact ⟨a, rfl, by simpa [bind, Except.bind] using h⟩

/-- Constant propagation preserves source lines positionally. -/
theorem cp_go_map_line (zf : String) (c : List (String × String)) (s : List Instr) :
    (constantPropagationGo zf c s).map Instr.line = s.map Instr.line := by
  induction s generalizing c with
  | nil => rfl
  | cons i t ih =>
    obtain ⟨op, operands, n⟩ := i
    simp [constantPropagationGo, ih, Instr.line]

/-- Constant propagation preserves source lines. -/
theorem cp_map_line (s : List Instr) (zf : String) :
    (constant_propagation s zf).map Instr.line = s.map Instr.line :=
  cp_go_map_line zf [] s

/-- Dead-code elimination only ever removes instructions. -/
theorem dce_sublist (s : List Instr) : List.Sublist (dead_code_elimination s) s := by
  unfold dead_code_elimination
  exact List.filter_sublist s

/-- One strength-reduction step keeps the source line. -/
theorem strengthStep_line (i : Instr) : Instr.line (strengthStep i) = Instr.line i := by
  obtain ⟨op, ops, n⟩ := i
  unfold strengthStep
  split
  · next heq => cases heq; split_ifs <;> rfl
  · next heq => cases heq; split_ifs <;> rfl
  · rfl

/-- Strength reduction preserves source lines positionally. -/
theorem sr_map_line (s : List Instr) :
    (strength_reduction s).map Instr.line = s.map Instr.line := by
  unfold strength_reduction
  rw [List.map_map]
  exact List.map_congr_left (fun i _ => strengthStep_line i)

/-- A successful folding pass preserves source lines positionally. -/
theorem folding_pass_map_line (zf : String) :
    ∀ (s out : List Instr), folding_pass zf s = .ok out →
      out.map Instr.line = s.map Instr.line := by
  intro s
  induction s with
  | nil =>
    intro out h
    simp only [folding_pass] at h
    cases h
    rfl
  | cons i t ih =>
    intro out h
    obtain ⟨op, ops, n⟩ := i
    unfold folding_pass at h
    split at h
    · rcases except_bind_ok h with ⟨r, hfce, h2⟩
      rcases except_bind_ok h2 with ⟨tl, hfp, h3⟩
      split at h3 <;> (cases h3; simp [ih tl hfp, Instr.line])
    · rcases except_bind_ok h with ⟨tl, hfp, h3⟩
      cases h3
      simp [ih tl hfp, Instr.line]

/-- Each bounded round maps output lines to a sublist of input lines. -/
theorem optimizeRounds_sublist (zf : String) :
    ∀ (k : Nat) (s out : List Instr), optimizeRounds zf k s = .ok out →
      List.Sublist (out.map Instr.line) (s.map Instr.line) := by
  intro k
  induction k with
  | zero =>
    intro s out h
    cases h
    exact List.Sublist.refl _
  | succ k ih =>
    intro s out h
    unfold optimizeRounds at h
    simp only [] at h
    have hos : List.Sublist
        ((strength_reduction (dead_code_elimination (constant_propagation s zf))).map Instr.line)
        (s.map Instr.line) := by
      rw [sr_map_line, ← cp_map_line s zf]
      exact List.Sublist.map Instr.line (dce_sublist _)
    rcases except_bind_ok h with ⟨nn, hfp, h2⟩
    split at h2
    · cases h2
      exact hos
    · have hrec := ih nn out h2
      have hnn : nn.map Instr.line =
          (strength_reduction (dead_code_elimination (constant_propagation s zf))).map Instr.line :=
        folding_pass_map_line zf _ nn hfp
      exact (hnn ▸ hrec).trans hos

/-- C10: a successful run of the optimizer never grows the stream, and the
list of source lines of the output is a sublist of the input's source
lines — every output instruction carries the line number of the input
instruction it was derived from, in order. -/
theorem optimizer_shrinks_and_preserves_lines (s : List Instr) (zf : String)
    (out : List Instr) (h : optimize_instructions s zf = .ok out) :
    List.Sublist (out.map Instr.line) (s.map Instr.line) ∧ out.length ≤ s.length := by
  unfold optimize_instructions at h
  split at h
  · cases h
    next hs => subst hs; exact ⟨List.Sublist.refl _, le_refl _⟩
  · have hsub := optimizeRounds_sublist zf 3 s out h
    refine ⟨hsub, ?_⟩
    have := hsub.length_le
    simpa using this

/-- C10 witness: a concrete optimizer run on which the sublist and length
conclusions hold. -/
theorem optimizer_shrinks_and_preserves_lines_witness :
    optimize_instructions [("PRINT", ["x"], 1)] "test.z" = .ok [("PRINT", ["x"], 1)] ∧
    (List.Sublist (([("PRINT", ["x"], 1)] : List Instr).map Instr.line)
        (([("PRINT", ["x"], 1)] : List Instr).map Instr.line) ∧
      ([("PRINT", ["x"], 1)] : List Instr).length ≤
        ([("PRINT", ["x"], 1)] : List Instr).length) :=
  ⟨by with_unfolding_all rfl,
   optimizer_shrinks_and_preserves_lines _ "test.z" _ (by with_unfolding_all rfl)⟩

/-- Opcode count over a cons cell. -/
theorem countOp_cons (x : String) (i : Instr) (t : List Instr) :
    countOp x (i :: t) = (if i.1 = x then 1 else 0) + countOp x t := by
  simp only [countOp, List.filter_cons]
  by_cases h : i.1 = x
  · simp [h]
    omega
  · simp [h]

/-- The depth scan distributes over append. -/
theorem balAux_append (l m : List Instr) :
    ∀ d, balAux d (l ++ m) = (balAux d l).bind (fun e => balAux e m) := by
  induction l with
  | nil => intro d; rfl
  | cons i t ih =>
    intro d
    obtain ⟨op, ops, n⟩ := i
    simp only [List.cons_append, balAux]
    split_ifs with h1 h2 h3
    · exact ih (d + 1)
    · simp
    · exact ih (d - 1)
    · exact ih d

/-- A successful depth scan relates the marker counts. -/
theorem balAux_count (l : List Instr) :
    ∀ d e, balAux d l = some e → d + countOp "INDENT" l = e + countOp "DEDENT" l := by
  induction l with
  | nil =>
    intro d e h
    cases h
    rfl
  | cons i t ih =>
    intro d e h
    obtain ⟨op, ops, n⟩ := i
    rw [countOp_cons, countOp_cons]
    simp only [balAux] at h
    by_cases h1 : op = "INDENT"
    · rw [if_pos h1] at h
      have := ih (d + 1) e h
      subst h1
      rw [if_pos rfl, if_neg (by decide : ¬ ("INDENT" : String) = "DEDENT")]
      omega
    · rw [if_neg h1] at h
      by_cases h2 : op = "DEDENT"
      · rw [if_pos h2] at h
        by_cases h0 : d = 0
        · rw [if_pos h0] at h
          cases h
        · rw [if_neg h0] at h
          have := ih (d - 1) e h
          subst h2
          rw [if_neg (by decide : ¬ ("DEDENT" : String) = "INDENT"), if_pos rfl]
          omega
      · rw [if_neg h2] at h
        have := ih d e h
        rw [if_neg h1, if_neg h2]
        omega

/-- A non-marker instruction leaves the depth unchanged. -/
theorem balAux_single_other (e : Nat) (i : Instr) (h1 : i.1 ≠ "INDENT") (h2 : i.1 ≠ "DEDENT") :
    balAux e [i] = some e := by
  obtain ⟨op, ops, n⟩ := i
  simp only [balAux]
  simp_all

/-- An INDENT raises the depth by one. -/
theorem balAux_single_indent (e : Nat) (ops : List String) (n : Nat) :
    balAux e [("INDENT", ops, n)] = some (e + 1) := by
  simp [balAux]

/-- A DEDENT at positive depth lowers it by one. -/
theorem balAux_single_dedent (e : Nat) (ops : List String) (n : Nat) (h : e ≠ 0) :
    balAux e [("DEDENT", ops, n)] = some (e - 1) := by
  simp [balAux, h]

/-- Invariant of the lexer state: nonempty stack with bottom 0, and the
instruction stream's running depth equals the stack height. -/
def StackInv (st : LexState) : Prop :=
  st.indentStack ≠ [] ∧ st.indentStack.getLast? = some 0 ∧
  balAux 0 st.instructions = some (st.indentStack.length - 1)

/-- The pop loop preserves the stack invariant. -/
theorem popBlocks_inv (lineNum indent : Nat) :
    ∀ (stack : List Nat) (instrs : List Instr) (cf : Option String) (fd : Nat),
      stack ≠ [] → stack.getLast? = some 0 →
      balAux 0 instrs = some (stack.length - 1) →
      ((popBlocks lineNum indent stack instrs cf fd).1 ≠ [] ∧
       (popBlocks lineNum indent stack instrs cf fd).1.getLast? = some 0 ∧
       balAux 0 (popBlocks lineNum indent stack instrs cf fd).2.1 =
         some ((popBlocks lineNum indent stack instrs cf fd).1.length - 1)) := by
  intro stack
  induction stack with
  | nil =>
    intro instrs cf fd hne _ _
    exact absurd rfl hne
  | cons top rest ih =>
    intro instrs cf fd _ hlast hbal
    by_cases hlt : indent < top
    · cases rest with
      | nil =>
        exfalso
        simp only [List.getLast?_singleton, Option.some.injEq] at hlast
        omega
      | cons r0 rs =>
        unfold popBlocks
        simp only [if_pos hlt]
        apply ih
        · simp
        · rw [List.getLast?_cons_cons] at hlast
          exact hlast
        · rw [balAux_append, hbal]
          simp only [List.length_cons, Nat.add_sub_cancel, Option.some_bind]
          rw [balAux_single_dedent _ _ _ (by omega)]
          simp
    · unfold popBlocks
      simp only [if_neg hlt]
      exact ⟨by simp, hlast, hbal⟩

/-- Indentation handling preserves the stack invariant. -/
theorem indentAdjust_inv {zf : String} {lineNum indent : Nat} {st st' : LexState}
    (hinv : StackInv st) (h : indentAdjust zf lineNum indent st = .ok st') :
    StackInv st' := by
  obtain ⟨hne, hlast, hbal⟩ := hinv
  unfold indentAdjust at h
  cases hstack : st.indentStack with
  | nil => exact absurd hstack hne
  | cons top rest =>
    rw [hstack] at h hlast hbal
    simp only at h
    split_ifs at h with h1 hfs h2
    · cases h
      refine ⟨by simp, ?_, ?_⟩
      · rw [List.getLast?_cons_cons]
        exact hlast
      · rw [balAux_append, hbal, Option.some_bind, balAux_single_indent]
        simp
    · cases h
      refine ⟨by simp, ?_, ?_⟩
      · rw [List.getLast?_cons_cons]
        exact hlast
      · rw [balAux_append, hbal, Option.some_bind, balAux_single_indent]
        simp
    · have hpop := popBlocks_inv lineNum indent (top :: rest) st.instructions
        st.currentFunction st.funcDepth (by simp) hlast hbal
      cases hh : (popBlocks lineNum indent (top :: rest) st.instructions
          st.currentFunction st.funcDepth).1.head? with
      | none =>
        rw [hh] at h
        exact Except.noConfusion h
      | some t2 =>
        rw [hh] at h
        simp only at h
        split_ifs at h with hne2
        · cases h
          exact hpop
    · cases h
      exact ⟨hstack ▸ hne, hstack ▸ hlast, hstack ▸ hbal⟩

/-- The FN arm appends exactly one FNDEF instruction. -/
theorem fnArm_effects {zf : String} {st : LexState} {lineNum : Nat} {lineMod : String}
    {st' : LexState} (h : fnArm zf st lineNum lineMod = .ok st') :
    st'.indentStack = st.indentStack ∧
      ∃ ops, st'.instructions = st.instructions ++ [("FNDEF", ops, lineNum)] := by
  unfold fnArm at h
  simp only at h
  rcases hsp : fnSplitRet (fnStripColon (pyStrip (strDrop lineMod 2))) with ⟨declF, retType⟩
  rw [hsp] at h
  simp only at h
  split_ifs at h with hp hps
  · rcases except_bind_ok h with ⟨params, hpar, h2⟩
    cases h2
    exact ⟨rfl, _, rfl⟩
  · rcases except_bind_ok h with ⟨params, hpar, h2⟩
    cases h2
    exact ⟨rfl, _, rfl⟩
  · cases h
    exact ⟨rfl, _, rfl⟩

/-- The CALL arm appends exactly one CALL instruction. -/
theorem callArm_effects (st : LexState) (lineNum : Nat) (operands : List String) :
    (callArm st lineNum operands).indentStack = st.indentStack ∧
      ∃ ops, (callArm st lineNum operands).instructions =
        st.instructions ++ [("CALL", ops, lineNum)] :=
  ⟨rfl, _, rfl⟩

/-- Statement processing appends at most one non-marker instruction. -/
theorem processStatement_effects {zf : String} {st : LexState} {n : Nat} {line : String}
    {st' : LexState} (h : processStatement zf st n line = .ok st') :
    st'.indentStack = st.indentStack ∧
      (st'.instructions = st.instructions ∨
        ∃ i : Instr, st'.instructions = st.instructions ++ [i] ∧
          i.1 ≠ "INDENT" ∧ i.1 ≠ "DEDENT") := by
  unfold processStatement at h
  rcases hct : computeTokens line with ⟨tokens, lineMod⟩
  rw [hct] at h
  cases tokens with
  | nil =>
    simp only at h
    cases h
    exact ⟨rfl, Or.inl rfl⟩
  | cons tok0 operands0 =>
    simp only at h
    split_ifs at h with hop hfn hcall
    · obtain ⟨hstack, ops, hin⟩ := fnArm_effects h
      refine ⟨hstack, Or.inr ⟨("FNDEF", ops, n), hin, ?_, ?_⟩⟩
      · intro he
        have he2 : ("FNDEF" : String) = "INDENT" := he
        exact absurd he2 (by decide)
      · intro he
        have he2 : ("FNDEF" : String) = "DEDENT" := he
        exact absurd he2 (by decide)
    · cases h
      obtain ⟨hstack, ops, hin⟩ := callArm_effects st n operands0
      refine ⟨hstack, Or.inr ⟨("CALL", ops, n), hin, ?_, ?_⟩⟩
      · intro he
        have he2 : ("CALL" : String) = "INDENT" := he
        exact absurd he2 (by decide)
      · intro he
        have he2 : ("CALL" : String) = "DEDENT" := he
        exact absurd he2 (by decide)
    · rcases except_bind_ok h with ⟨⟨operands2, decls2⟩, hcm, h2⟩
      rcases except_bind_ok h2 with ⟨u, hbc, h3⟩
      rcases except_bind_ok h3 with ⟨vars2, hcv, h4⟩
      cases h4
      refine ⟨rfl, Or.inr ⟨_, rfl, ?_, ?_⟩⟩
      · intro he
        have he2 : pyUpper tok0 = "INDENT" := he
        rw [he2] at hop
        exact absurd hop (by decide)
      · intro he
        have he2 : pyUpper tok0 = "DEDENT" := he
        rw [he2] at hop
        exact absurd hop (by decide)

/-- Line processing preserves the stack invariant. -/
theorem processLine_inv {zf : String} {st : LexState} {n : Nat} {raw : String}
    {st' : LexState} (hinv : StackInv st) (h : processLine zf st n raw = .ok st') :
    StackInv st' := by
  unfold processLine at h
  simp only at h
  split_ifs at h with hskip hempty
  · cases h
    exact hinv
  · rcases except_bind_ok h with ⟨st1, hia, h2⟩
    cases h2
    exact indentAdjust_inv hinv hia
  · rcases except_bind_ok h with ⟨st1, hia, h2⟩
    have hinv1 := indentAdjust_inv hinv hia
    obtain ⟨hstack, hinstr⟩ := processStatement_effects h2
    obtain ⟨hne1, hlast1, hbal1⟩ := hinv1
    refine ⟨hstack ▸ hne1, hstack ▸ hlast1, ?_⟩
    rcases hinstr with heq | ⟨i, heq, hni, hnd⟩
    · rw [heq, hstack]
      exact hbal1
    · rw [heq, balAux_append, hbal1, Option.some_bind,
        balAux_single_other _ i hni hnd, hstack]
/-- The line loop preserves the stack invariant. -/
theorem parseGo_inv (zf : String) :
    ∀ (lines : List String) (st : LexState) (n : Nat) (st' : LexState),
      StackInv st → parseGo zf st n lines = .ok st' → StackInv st' := by
  intro lines
  induction lines with
  | nil =>
    intro st n st' hinv h
    cases h
    exact hinv
  | cons l rest ih =>
    intro st n st' hinv h
    unfold parseGo at h
    rcases except_bind_ok h with ⟨st2, hpl, h2⟩
    exact ih st2 (n + 1) st' (processLine_inv hinv hpl) h2

/-- End-of-file closing drives the depth scan to zero. -/
theorem closeBlocksAux_inv (lineNum : Nat) :
    ∀ (stack : List Nat) (instrs : List Instr) (cf : Option String) (fd : Nat),
      stack ≠ [] →
      balAux 0 instrs = some (stack.length - 1) →
      balAux 0 (closeBlocksAux lineNum stack instrs cf fd).2.1 = some 0 := by
  intro stack
  induction stack with
  | nil =>
    intro instrs cf fd hne _
    exact absurd rfl hne
  | cons a rest ih =>
    intro instrs cf fd _ hbal
    cases rest with
    | nil =>
      unfold closeBlocksAux
      simpa using hbal
    | cons b rs =>
      unfold closeBlocksAux
      simp only
      apply ih
      · simp
      · rw [balAux_append, hbal, Option.some_bind]
        rw [balAux_single_dedent _ _ _ (by simp)]
        simp

/-- C9: on every input the lexer accepts, the instruction stream has
balanced block markers: scanning depth never goes negative (`balAux`
succeeds), the total number of INDENTs equals the total number of DEDENTs,
and in every prefix the DEDENT count never exceeds the INDENT count. -/
theorem lexer_markers_balanced (zf : String) (lines : List String)
    (instrs : List Instr) (vs : List String) (ds : Decls)
    (h : parse_z_lines zf lines = .ok (instrs, vs, ds)) :
    balAux 0 instrs = some 0 ∧
    countOp "INDENT" instrs = countOp "DEDENT" instrs ∧
    ∀ m, countOp "DEDENT" (instrs.take m) ≤ countOp "INDENT" (instrs.take m) := by
  unfold parse_z_lines at h
  rcases except_bind_ok h with ⟨stF, hgo, h2⟩
  have hinv0 : StackInv {} := ⟨by simp, rfl, rfl⟩
  have hinvF := parseGo_inv zf lines {} 1 stF hinv0 hgo
  obtain ⟨hneF, hlastF, hbalF⟩ := hinvF
  have hbal := closeBlocksAux_inv lines.length stF.indentStack stF.instructions
    stF.currentFunction stF.funcDepth hneF hbalF
  simp only at h2
  cases h2
  refine ⟨hbal, ?_, ?_⟩
  · have := balAux_count _ 0 0 hbal
    omega
  · intro m
    have hsplit :
        (closeBlocksAux lines.length stF.indentStack stF.instructions stF.currentFunction
          stF.funcDepth).2.1 =
        (closeBlocksAux lines.length stF.indentStack stF.instructions stF.currentFunction
          stF.funcDepth).2.1.take m ++
        (closeBlocksAux lines.length stF.indentStack stF.instructions stF.currentFunction
          stF.funcDepth).2.1.drop m := (List.take_append_drop m _).symm
    rw [hsplit, balAux_append] at hbal
    cases hb : balAux 0 ((closeBlocksAux lines.length stF.indentStack stF.instructions
        stF.currentFunction stF.funcDepth).2.1.take m) with
    | none => rw [hb] at hbal; simp at hbal
    | some e =>
      have := balAux_count _ 0 e hb
      omega

/-- C9 witness: a concrete two-line program whose stream carries one INDENT
and one DEDENT. -/
theorem lexer_markers_balanced_witness :
    parse_z_lines "test.z" ["IF a > 0:", "    PRINT a"] =
      .ok ([("IF", ["a", ">", "0:"], 1), ("INDENT", [], 2), ("PRINT", ["a"], 2),
            ("DEDENT", [], 2)], ["a"], []) ∧
    (balAux 0 [("IF", ["a", ">", "0:"], 1), ("INDENT", [], 2), ("PRINT", ["a"], 2),
        ("DEDENT", [], 2)] = some 0 ∧
      countOp "INDENT" [("IF", ["a", ">", "0:"], 1), ("INDENT", [], 2), ("PRINT", ["a"], 2),
        ("DEDENT", [], 2)] =
      countOp "DEDENT" [("IF", ["a", ">", "0:"], 1), ("INDENT", [], 2), ("PRINT", ["a"], 2),
        ("DEDENT", [], 2)] ∧
      ∀ m, countOp "DEDENT" (([("IF", ["a", ">", "0:"], 1), ("INDENT", [], 2),
          ("PRINT", ["a"], 2), ("DEDENT", [], 2)] : List Instr).take m) ≤
        countOp "INDENT" (([("IF", ["a", ">", "0:"], 1), ("INDENT", [], 2),
          ("PRINT", ["a"], 2), ("DEDENT", [], 2)] : List Instr).take m)) :=
  ⟨by with_unfolding_all rfl,
   lexer_markers_balanced "test.z" ["IF a > 0:", "    PRINT a"] _ _ _
     (by with_unfolding_all rfl)⟩

/-- C8 counterexample: a line reading `myloop:` — ending in `:` and not
classified as any other construct — is rejected by the lexer as an unknown
opcode; no LABEL instruction is ever produced. -/
theorem label_line_rejected_counterexample :
    parse_z_lines "test.z" ["myloop:"] =
      .error ⟨"Unknown opcode \x27MYLOOP:\x27", some 1, .SYNTAX_ERROR, some "test.z"⟩ :=
  by with_unfolding_all rfl

/-- C8 (amended): the lexer of this edition has no label rule.  A line
ending in `:` that is not otherwise classified is fatal — its first token
(uppercased, colon included) is not in the opcode set — exactly like any
other unrecognized opcode. -/
theorem unknown_opcode_fatal_no_labels :
    parse_z_lines "test.z" ["start:"] =
      .error ⟨"Unknown opcode \x27START:\x27", some 1, .SYNTAX_ERROR, some "test.z"⟩ ∧
    parse_z_lines "test.z" ["BLORP 1 2"] =
      .error ⟨"Unknown opcode \x27BLORP\x27", some 1, .SYNTAX_ERROR, some "test.z"⟩ :=
  ⟨by with_unfolding_all rfl, by with_unfolding_all rfl⟩

end ZLang
namespace ZLang

theorem cacheFetch_wf {c : List (String × String)} (hwf : cacheWF c) (x : String) :
    (cacheFetch c x).1 = sanitize_identifier x ∧ cacheWF (cacheFetch c x).2 := by
  unfold cacheFetch
  cases hg : dictGet x c with
  | none =>
    refine ⟨rfl, ?_⟩
    intro p hp
    rcases List.mem_append.mp hp with hmem | hmem
    · exact hwf p hmem
    · rcases List.mem_singleton.mp hmem with rfl
      rfl
  | some v =>
    have hv : v = sanitize_identifier x := by
      unfold dictGet at hg
      cases hf : c.find? (fun p => p.1 == x) with
      | none => rw [hf] at hg; cases hg
      | some pr =>
        rw [hf] at hg
        injection hg with hg2
        have hg3 : pr.2 = v := hg2
        have hx : pr.1 = x := by simpa using List.find?_some hf
        have h2 := hwf pr (List.mem_of_find?_eq_some hf)
        rw [← hg3, h2, hx]
    refine ⟨?_, ?_⟩
    · show v = sanitize_identifier x
      exact hv
    · exact hwf

set_option maxHeartbeats 2000000 in
theorem genStep_step {decls : Decls} {lv : List (String × List String)} {st : CGState}
    {i : Instr} {st' : CGState} (hwf : cacheWF st.sanitizedCache)
    (h : genStep decls lv st i = .ok st') :
    (∃ d, st'.cLines = st.cLines ++ d) ∧ cacheWF st'.sanitizedCache := by
  obtain ⟨op, ops, n⟩ := i
  unfold genStep at h
  simp only at h
  repeat' split at h
  all_goals first
    | exact Except.noConfusion h
    | (cases h
       constructor
       · first
         | exact ⟨_, rfl⟩
         | exact ⟨_, List.append_assoc _ _ _⟩
         | exact ⟨[], (List.append_nil _).symm⟩
       · first
         | exact hwf
         | exact (cacheFetch_wf hwf _).2)

theorem genStep_arith (decls : Decls) (lv : List (String × List String)) (st : CGState)
    (op a b r : String) (n : Nat)
    (hop : op = "ADD" ∨ op = "SUB" ∨ op = "MUL" ∨ op = "DIV" ∨ op = "MOD") :
    genStep decls lv st (op, [a, b, r], n) =
      .ok { st with
        cLines := st.cLines ++
          add_overflow_check (indentPre st.indentLevel) (arithSym op) a b
            (cacheFetch st.sanitizedCache r).1 n,
        sanitizedCache := (cacheFetch st.sanitizedCache r).2 } := by
  rcases hop with h | h | h | h | h <;> subst h <;> rfl

theorem go_mono {decls : Decls} {lv : List (String × List String)} {st stF : CGState}
    {instrs : List Instr} (hwf : cacheWF st.sanitizedCache)
    (h : generate_c_function_section.go decls lv st instrs = .ok stF) :
    (∃ d, stF.cLines = st.cLines ++ d) ∧ cacheWF stF.sanitizedCache := by
  induction instrs generalizing st with
  | nil =>
    cases h
    exact ⟨⟨[], (List.append_nil _).symm⟩, hwf⟩
  | cons i rest ih =>
    rcases except_bind_ok h with ⟨st2, h1, h2⟩
    obtain ⟨⟨d1, hd1⟩, hwf2⟩ := genStep_step hwf h1
    obtain ⟨⟨d2, hd2⟩, hwfF⟩ := ih hwf2 h2
    exact ⟨⟨d1 ++ d2, by rw [hd2, hd1, List.append_assoc]⟩, hwfF⟩

theorem go_arith_emits {decls : Decls} {lv : List (String × List String)}
    {st stF : CGState} {instrs : List Instr} {op a b r : String} {n : Nat}
    (hwf : cacheWF st.sanitizedCache)
    (hop : op = "ADD" ∨ op = "SUB" ∨ op = "MUL" ∨ op = "DIV" ∨ op = "MOD")
    (hmem : (op, [a, b, r], n) ∈ instrs)
    (h : generate_c_function_section.go decls lv st instrs = .ok stF) :
    ∃ pre s t,
      s ++ add_overflow_check pre (arithSym op) a b (sanitize_identifier r) n ++ t
        = stF.cLines := by
  induction instrs generalizing st with
  | nil => cases hmem
  | cons i rest ih =>
    rcases except_bind_ok h with ⟨st2, h1, h2⟩
    rcases List.mem_cons.mp hmem with heq | hmem2
    · subst heq
      rw [genStep_arith decls lv st op a b r n hop] at h1
      cases h1
      obtain ⟨⟨d, hd⟩, _⟩ := go_mono ((cacheFetch_wf hwf r).2) h2
      refine ⟨indentPre st.indentLevel, st.cLines, d, ?_⟩
      rw [hd, ← (cacheFetch_wf hwf r).1]
    · exact ih (genStep_step hwf h1).2 hmem2 h2

theorem closeFuncStack_append (stack : List String) (cLines : List String) :
    ∃ d, closeFuncStack cLines stack = cLines ++ d := by
  induction stack generalizing cLines with
  | nil => exact ⟨[], (List.append_nil _).symm⟩
  | cons cl rest ih =>
    have hstep : closeFuncStack cLines (cl :: rest) =
        closeFuncStack ((if cl = "main" then cLines ++ ["return 0;"] else cLines)
          ++ ["\x7d"]) rest := rfl
    by_cases hm : cl = "main"
    · obtain ⟨d, hd⟩ := ih ((cLines ++ ["return 0;"]) ++ ["\x7d"])
      refine ⟨["return 0;"] ++ ["\x7d"] ++ d, ?_⟩
      rw [hstep, if_pos hm, hd]
      simp [List.append_assoc]
    · obtain ⟨d, hd⟩ := ih (cLines ++ ["\x7d"])
      refine ⟨["\x7d"] ++ d, ?_⟩
      rw [hstep, if_neg hm, hd]
      simp [List.append_assoc]

theorem registerDests_wf {st : PrePassState} (hwf : cacheWF st.sanitizedCache)
    (ds : List String) : cacheWF (registerDests st ds).sanitizedCache := by
  induction ds generalizing st with
  | nil => exact hwf
  | cons d rest ih =>
    unfold registerDests
    simp only
    split
    · exact ih hwf
    · apply ih
      split
      · split
        · exact (cacheFetch_wf hwf d).2
        · exact (cacheFetch_wf hwf d).2
      · exact (cacheFetch_wf hwf d).2

set_option maxHeartbeats 1000000 in
theorem prePassStep_wf {st : PrePassState} {i : Instr} {st' : PrePassState}
    (hwf : cacheWF st.sanitizedCache) (h : prePassStep st i = .ok st') :
    cacheWF st'.sanitizedCache := by
  obtain ⟨op, ops, n⟩ := i
  unfold prePassStep at h
  simp only at h
  repeat' split at h
  all_goals first
    | exact Except.noConfusion h
    | (rcases except_bind_ok h with ⟨vt2, hv, h2⟩
       cases h2
       exact hwf)
    | (cases h
       first
         | exact hwf
         | (apply registerDests_wf
            exact hwf))

theorem prePass_go_wf {st : PrePassState} {instrs : List Instr} {pp : PrePassState}
    (hwf : cacheWF st.sanitizedCache) (h : prePass.go st instrs = .ok pp) :
    cacheWF pp.sanitizedCache := by
  induction instrs generalizing st with
  | nil => cases h; exact hwf
  | cons i rest ih =>
    rcases except_bind_ok h with ⟨st2, h1, h2⟩
    exact ih (prePassStep_wf hwf h1) h2

theorem prePass_wf {declarations : Decls} {instrs : List Instr} {pp : PrePassState}
    (h : prePass declarations instrs = .ok pp) : cacheWF pp.sanitizedCache :=
  prePass_go_wf (fun p hp => absurd hp (List.not_mem_nil p)) h

theorem section_arith_emits {instructions : List Instr} {decls : Decls}
    {init out : List String} {op a b r : String} {n : Nat}
    (hop : op = "ADD" ∨ op = "SUB" ∨ op = "MUL" ∨ op = "DIV" ∨ op = "MOD")
    (hmem : (op, [a, b, r], n) ∈ instructions)
    (hok : generate_c_function_section instructions decls init = .ok out) :
    ∃ pre s t,
      s ++ add_overflow_check pre (arithSym op) a b (sanitize_identifier r) n ++ t
        = out := by
  rcases except_bind_ok hok with ⟨pp, hpp, h2⟩
  rcases except_bind_ok h2 with ⟨stF, hgo, h3⟩
  cases h3
  obtain ⟨pre, s, t, hst⟩ := go_arith_emits (prePass_wf hpp) hop hmem hgo
  obtain ⟨d, hd⟩ := closeFuncStack_append stF.funcStack stF.cLines
  exact ⟨pre, s, t ++ d, by rw [hd, ← hst]; simp [List.append_assoc]⟩

/-- C6: every `ADD`, `SUB` and `MUL` instruction with three operands makes
the code generator emit a widened-accumulator (`long long`) overflow guard that
compares against `INT_MAX`/`INT_MIN` and calls `error_exit` with code 45 naming
the operation and source line; every `DIV` and `MOD` instruction is emitted as
the plain C operation on one line with no guard (the last two conjuncts give
the exact, complete emission of an arithmetic step for `/` and `%`); and on
Scenario E (`MOV int x 2147483647`; `ADD x 1 y`) the generated function section
is exactly the declaration followed by the guarded block whose failure branch
calls the fatal-error helper `error_exit`. -/
theorem arith_overflow_guard_emission
    (instructions : List Instr) (decls : Decls) (init out : List String)
    (hok : generate_c_function_section instructions decls init = .ok out) :
    (∀ a b r n, ("ADD", [a, b, r], n) ∈ instructions →
      ∃ pre s t, s ++
        [pre ++ "\x7b",
         pre ++ "    long long _temp = (long long)" ++ a ++ " " ++ "+" ++
           " (long long)" ++ b ++ ";",
         pre ++ "    if (_temp > INT_MAX || _temp < INT_MIN) \x7b",
         pre ++ "        error_exit(" ++ "45" ++ ", \"Integer overflow in " ++ "+" ++
           " operation at line " ++ toString n ++ "\");",
         pre ++ "    \x7d",
         pre ++ "    " ++ sanitize_identifier r ++ " = " ++ a ++ " " ++ "+" ++
           " " ++ b ++ ";",
         pre ++ "\x7d"] ++ t = out) ∧
    (∀ a b r n, ("SUB", [a, b, r], n) ∈ instructions →
      ∃ pre s t, s ++
        [pre ++ "\x7b",
         pre ++ "    long long _temp = (long long)" ++ a ++ " " ++ "-" ++
           " (long long)" ++ b ++ ";",
         pre ++ "    if (_temp > INT_MAX || _temp < INT_MIN) \x7b",
         pre ++ "        error_exit(" ++ "45" ++ ", \"Integer overflow in " ++ "-" ++
           " operation at line " ++ toString n ++ "\");",
         pre ++ "    \x7d",
         pre ++ "    " ++ sanitize_identifier r ++ " = " ++ a ++ " " ++ "-" ++
           " " ++ b ++ ";",
         pre ++ "\x7d"] ++ t = out) ∧
    (∀ a b r n, ("MUL", [a, b, r], n) ∈ instructions →
      ∃ pre s t, s ++
        [pre ++ "\x7b",
         pre ++ "    long long _temp = (long long)" ++ a ++ " " ++ "*" ++
           " (long long)" ++ b ++ ";",
         pre ++ "    if (_temp > INT_MAX || _temp < INT_MIN) \x7b",
         pre ++ "        error_exit(" ++ "45" ++ ", \"Integer overflow in " ++ "*" ++
           " operation at line " ++ toString n ++ "\");",
         pre ++ "    \x7d",
         pre ++ "    " ++ sanitize_identifier r ++ " = " ++ a ++ " " ++ "*" ++
           " " ++ b ++ ";",
         pre ++ "\x7d"] ++ t = out) ∧
    (∀ a b r n, ("DIV", [a, b, r], n) ∈ instructions →
      ∃ pre s t, s ++
        [pre ++ sanitize_identifier r ++ " = " ++ a ++ " " ++ "/" ++ " " ++ b ++ ";"]
        ++ t = out) ∧
    (∀ a b r n, ("MOD", [a, b, r], n) ∈ instructions →
      ∃ pre s t, s ++
        [pre ++ sanitize_identifier r ++ " = " ++ a ++ " " ++ "%" ++ " " ++ b ++ ";"]
        ++ t = out) ∧
    (∀ (dc : Decls) (lv : List (String × List String)) (st st2 : CGState) a b r n,
      cacheWF st.sanitizedCache →
      genStep dc lv st ("DIV", [a, b, r], n) = .ok st2 →
      st2.cLines = st.cLines ++
        [indentPre st.indentLevel ++ sanitize_identifier r ++ " = " ++ a ++ " " ++
          "/" ++ " " ++ b ++ ";"]) ∧
    (∀ (dc : Decls) (lv : List (String × List String)) (st st2 : CGState) a b r n,
      cacheWF st.sanitizedCache →
      genStep dc lv st ("MOD", [a, b, r], n) = .ok st2 →
      st2.cLines = st.cLines ++
        [indentPre st.indentLevel ++ sanitize_identifier r ++ " = " ++ a ++ " " ++
          "%" ++ " " ++ b ++ ";"]) ∧
    generate_c_function_section
        [("MOV", ["int", "x", "2147483647"], 1), ("ADD", ["x", "1", "y"], 2)] [] [] =
      .ok ["int x = 2147483647;",
           "\x7b",
           "    long long _temp = (long long)x + (long long)1;",
           "    if (_temp > INT_MAX || _temp < INT_MIN) \x7b",
           "        error_exit(45, \"Integer overflow in + operation at line 2\");",
           "    \x7d",
           "    y = x + 1;",
           "\x7d"] := by
  refine ⟨?_, ?_, ?_, ?_, ?_, ?_, ?_, ?_⟩
  · exact fun a b r n hmem => section_arith_emits (Or.inl rfl) hmem hok
  · exact fun a b r n hmem => section_arith_emits (Or.inr (Or.inl rfl)) hmem hok
  · exact fun a b r n hmem => section_arith_emits (Or.inr (Or.inr (Or.inl rfl))) hmem hok
  · exact fun a b r n hmem =>
      section_arith_emits (Or.inr (Or.inr (Or.inr (Or.inl rfl)))) hmem hok
  · exact fun a b r n hmem =>
      section_arith_emits (Or.inr (Or.inr (Or.inr (Or.inr rfl)))) hmem hok
  · intro dc lv st st2 a b r n hwf hg
    rw [genStep_arith dc lv st "DIV" a b r n (Or.inr (Or.inr (Or.inr (Or.inl rfl))))] at hg
    cases hg
    rw [(cacheFetch_wf hwf r).1]
    with_unfolding_all rfl
  · intro dc lv st st2 a b r n hwf hg
    rw [genStep_arith dc lv st "MOD" a b r n (Or.inr (Or.inr (Or.inr (Or.inr rfl))))] at hg
    cases hg
    rw [(cacheFetch_wf hwf r).1]
    with_unfolding_all rfl
  · with_unfolding_all rfl

/-- Closed witness for C6 at Scenario E. -/
theorem arith_overflow_guard_emission_witness :
    ∃ pre s t, s ++
      [pre ++ "\x7b",
       pre ++ "    long long _temp = (long long)" ++ "x" ++ " " ++ "+" ++
         " (long long)" ++ "1" ++ ";",
       pre ++ "    if (_temp > INT_MAX || _temp < INT_MIN) \x7b",
       pre ++ "        error_exit(" ++ "45" ++ ", \"Integer overflow in " ++ "+" ++
         " operation at line " ++ toString 2 ++ "\");",
       pre ++ "    \x7d",
       pre ++ "    " ++ sanitize_identifier "y" ++ " = " ++ "x" ++ " " ++ "+" ++
         " " ++ "1" ++ ";",
       pre ++ "\x7d"] ++ t =
      ["int x = 2147483647;",
       "\x7b",
       "    long long _temp = (long long)x + (long long)1;",
       "    if (_temp > INT_MAX || _temp < INT_MIN) \x7b",
       "        error_exit(45, \"Integer overflow in + operation at line 2\");",
       "    \x7d",
       "    y = x + 1;",
       "\x7d"] := by
  have hmain := arith_overflow_guard_emission
    [("MOV", ["int", "x", "2147483647"], 1), ("ADD", ["x", "1", "y"], 2)] [] []
    ["int x = 2147483647;",
     "\x7b",
     "    long long _temp = (long long)x + (long long)1;",
     "    if (_temp > INT_MAX || _temp < INT_MIN) \x7b",
     "        error_exit(45, \"Integer overflow in + operation at line 2\");",
     "    \x7d",
     "    y = x + 1;",
     "\x7d"]
    (by with_unfolding_all rfl)
  have h1 := hmain.1 "x" "1" "y" 2 (by decide)
  obtain ⟨pre, s, t, hst⟩ := h1
  exact ⟨pre, s, t, hst⟩
end ZLang
